import Mathlib

/-!
# Playground hub: connection hub, packet dispatcher and leader election

A shallow embedding of `socket/hub.go` and `db/connector.go`.

* Go strings are Lean strings; `[]byte(s)` is the UTF-8 encoding of `s`.
* The key/value store is a record of four maps (strings, hashes, sets, lists);
  a pipeline is the sequence of its commands run at `Exec`.
* The client registry `h.clients` is a list of clients (one per id); a send on
  `client.send` appends to that client's queue.
* A Go panic (nil dereference, index out of range, `panic`, `log.Fatal`) is
  an `Except.error`.
-/

namespace Playground

/-! ## Go standard library: strings, strconv, hash/fnv -/

/-- The bytes of the UTF-8 encoding of the code point `c`. -/
def utf8Bytes (c : Nat) : List Nat :=
  if c < 0x80 then [c]
  else if c < 0x800 then [0xC0 + c / 64, 0x80 + c % 64]
  else if c < 0x10000 then [0xE0 + c / 4096, 0x80 + (c / 64) % 64, 0x80 + c % 64]
  else [0xF0 + c / 262144, 0x80 + (c / 4096) % 64, 0x80 + (c / 64) % 64, 0x80 + c % 64]

/-- Go `[]byte(s)`. -/
def bytes (s : String) : List Nat :=
  s.data.flatMap (fun c => utf8Bytes c.toNat)

/-- Go `fnv.New32a()`, `Write(bs)`, `Sum32()`: 32-bit FNV-1a. -/
def fnv32a (bs : List Nat) : Nat :=
  bs.foldl (fun h b => ((h ^^^ b) * 16777619) % 2 ^ 32) 2166136261

/-- Go `strings.Count(s, sep)` for a one-character separator. -/
def Count (s : String) (sep : Char) : Nat :=
  s.data.count sep

/-- The pieces of a character list between the occurrences of `sep`. -/
def splitChars (sep : Char) : List Char → List (List Char)
  | [] => [[]]
  | c :: cs =>
    if c = sep then [] :: splitChars sep cs
    else
      match splitChars sep cs with
      | [] => [[c]]
      | p :: ps => (c :: p) :: ps

/-- Go `strings.Split(s, sep)` for a one-character separator. -/
def Split (s : String) (sep : Char) : List String :=
  (splitChars sep s.data).map String.mk

/-- Go `strings.Contains(s, substr)`. -/
def Contains (s substr : String) : Bool :=
  s.data.tails.any (fun t => substr.data.isPrefixOf t)

/-- Go `strings.TrimSpace` (ASCII white space). -/
def TrimSpace (s : String) : String :=
  let ws : Char → Bool := fun c => c = ' ' || c = '\t' || c = '\n' || c = '\r' || c.toNat = 11 || c.toNat = 12
  String.mk ((s.data.dropWhile ws).reverse.dropWhile ws).reverse

/-- The value of a run of decimal digits, `none` when a character is no digit. -/
def parseDigits : List Char → Nat → Option Nat
  | [], acc => some acc
  | c :: cs, acc =>
    if 48 ≤ c.toNat ∧ c.toNat ≤ 57 then parseDigits cs (acc * 10 + (c.toNat - 48)) else none

/-- Go `strconv.Atoi(s)` on a 64-bit platform: the value and whether `err == nil`.
A syntax error gives 0, a range error the nearest bound. -/
def Atoi (s : String) : Int × Bool :=
  let signed : Bool × List Char :=
    match s.data with
    | '-' :: ds => (true, ds)
    | '+' :: ds => (false, ds)
    | ds => (false, ds)
  match signed.2 with
  | [] => (0, false)
  | d :: ds =>
    match parseDigits (d :: ds) 0 with
    | none => (0, false)
    | some n =>
      if signed.1 then
        if n ≤ 2 ^ 63 then (-(n : Int), true) else (-(2 : Int) ^ 63, false)
      else
        if n < 2 ^ 63 then ((n : Int), true) else ((2 : Int) ^ 63 - 1, false)

/-- Go `strconv.Itoa`. -/
def Itoa (i : Int) : String :=
  toString i

/-! ## Conversation keys (`Hub.processMessage`, cases `MessagePacket` and `GetMessagesPacket`) -/

/-- The conversation key of the `MessagePacket` case (hub.go 715-727). -/
def messageConversationKey (From To : String) : String :=
  let senderHash := fnv32a (bytes From)
  let recipientHash := fnv32a (bytes To)
  if recipientHash < senderHash then "conversation:" ++ To ++ ":" ++ From
  else "conversation:" ++ From ++ ":" ++ To

/-- The conversation key of the `GetMessagesPacket` case (hub.go 410-424). -/
def getMessagesConversationKey (sender Recipient : String) : String :=
  let senderHash := fnv32a (bytes sender)
  let recipientHash := fnv32a (bytes Recipient)
  if recipientHash < senderHash then "conversation:" ++ Recipient ++ ":" ++ sender
  else "conversation:" ++ sender ++ ":" ++ Recipient

/-! ## The shared state store -/

/-- Modelled from the spec: the store client's text encoding of a written value and
the decoding done by `utils.Bind` are not in src. A hash field holds the Go value
written to it, and reading decodes it back to that value. -/
inductive Value
  | str (s : String)
  | int (i : Int)
  | num (q : ℚ)
  | bool (b : Bool)
  deriving DecidableEq

/-- The fields of one hash, in the order they were first written. -/
abbrev Fields := List (String × Value)

/-- The value of field `f`, if the hash has it. -/
def getField (f : String) : Fields → Option Value
  | [] => none
  | (g, w) :: r => if g = f then some w else getField f r

/-- The hash with field `f` set to `v`. -/
def setField (f : String) (v : Value) : Fields → Fields
  | [] => [(f, v)]
  | (g, w) :: r => if g = f then (f, v) :: r else (g, w) :: setField f v r

/-- A field read as a string (the zero value when it holds none). -/
def fieldString (f : String) (fs : Fields) : String :=
  match getField f fs with
  | some (.str s) => s
  | _ => ""

/-- A field read as an int (the zero value when it holds none). -/
def fieldInt (f : String) (fs : Fields) : Int :=
  match getField f fs with
  | some (.int i) => i
  | _ => 0

/-- A field read as a float (the zero value when it holds none). -/
def fieldNum (f : String) (fs : Fields) : ℚ :=
  match getField f fs with
  | some (.num q) => q
  | _ => 0

/-- A field read as a bool (the zero value when it holds none). -/
def fieldBool (f : String) (fs : Fields) : Bool :=
  match getField f fs with
  | some (.bool b) => b
  | _ => false

/-- The store `db.GetInstance()`: one map per kind of key. An absent key is
the empty hash, set or list. -/
structure Store where
  strings : String → Option String
  hashes : String → Fields
  sets : String → List String
  lists : String → List String

namespace Store

/-- The command `DEL key`. -/
def Del (key : String) (db : Store) : Store :=
  { strings := Function.update db.strings key none
    hashes := Function.update db.hashes key []
    sets := Function.update db.sets key []
    lists := Function.update db.lists key [] }

/-- The command `SET key value`. -/
def Set (key value : String) (db : Store) : Store :=
  { db with strings := Function.update db.strings key (some value) }

/-- The command `HSET key field value`. -/
def HSet (key field : String) (value : Value) (db : Store) : Store :=
  { db with hashes := Function.update db.hashes key (setField field value (db.hashes key)) }

/-- The command `HSET key` with a map of fields. -/
def HSetMap (key : String) (fields : Fields) (db : Store) : Store :=
  fields.foldl (fun d fv => d.HSet key fv.1 fv.2) db

/-- The command `HDEL key field`. -/
def HDel (key field : String) (db : Store) : Store :=
  { db with hashes := Function.update db.hashes key ((db.hashes key).filter (fun fv => fv.1 ≠ field)) }

/-- The command `HGET key field`: `none` is the error `redis.Nil`. -/
def HGet (key field : String) (db : Store) : Option Value :=
  getField field (db.hashes key)

/-- The command `HGETALL key`. -/
def HGetAll (key : String) (db : Store) : Fields :=
  db.hashes key

/-- The command `HINCRBY key field n`: the store after it, the new value, and whether `err == nil`. -/
def HIncrBy (key field : String) (n : Int) (db : Store) : Store × Int × Bool :=
  match getField field (db.hashes key) with
  | none => (db.HSet key field (.int n), n, true)
  | some (.int i) => (db.HSet key field (.int (i + n)), i + n, true)
  | some _ => (db, 0, false)

/-- The command `SADD key member`. -/
def SAdd (key member : String) (db : Store) : Store :=
  if member ∈ db.sets key then db
  else { db with sets := Function.update db.sets key (db.sets key ++ [member]) }

/-- The command `SREM key member`. -/
def SRem (key member : String) (db : Store) : Store :=
  { db with sets := Function.update db.sets key ((db.sets key).filter (fun x => x ≠ member)) }

/-- The command `SISMEMBER key member`. -/
def SIsMember (key member : String) (db : Store) : Bool :=
  decide (member ∈ db.sets key)

/-- The command `SMEMBERS key`. -/
def SMembers (key : String) (db : Store) : List String :=
  db.sets key

/-- The command `LRANGE key 0 -1`: the whole list. -/
def LRangeAll (key : String) (db : Store) : List String :=
  db.lists key

/-- The command `LRANGE key -n -1`: the last `n` entries. -/
def LRangeLast (key : String) (n : Nat) (db : Store) : List String :=
  (db.lists key).drop ((db.lists key).length - n)

/-- The command `RPUSH key value`. -/
def RPush (key value : String) (db : Store) : Store :=
  { db with lists := Function.update db.lists key (db.lists key ++ [value]) }

/-- The command `LREM key 0 value`: every occurrence of `value` is removed. -/
def LRemAll (key value : String) (db : Store) : Store :=
  { db with lists := Function.update db.lists key ((db.lists key).filter (fun x => x ≠ value)) }

end Store

/-! ## Entity models and packets -/

/-- Modelled from the spec: `models.Role` is not in src; the roles are numbered
in the order the spec lists them. Only their being distinct is used. -/
abbrev Role := Int

/-- Modelled from the spec: the role `models.Guest` (not in src). -/
def Guest : Role := 0

/-- Modelled from the spec: the role `models.Hacker` (not in src). -/
def Hacker : Role := 1

/-- Modelled from the spec: the role `models.SponsorRep` (not in src). -/
def SponsorRep : Role := 2

/-- Modelled from the spec: the role `models.Mentor` (not in src). -/
def Mentor : Role := 3

/-- Modelled from the spec: the role `models.Organizer` (not in src). -/
def Organizer : Role := 4

/-- Modelled from the spec: `models.Character` is not in src. The fields are
those hub.go and the spec name. -/
structure Character where
  ID : String
  Name : String
  Role : Int
  Room : String
  X : ℚ
  Y : ℚ
  Ingest : String
  SponsorID : String
  deriving DecidableEq

/-- The zero value `new(models.Character)`. -/
def Character.zero : Character :=
  { ID := "", Name := "", Role := 0, Room := "", X := 0, Y := 0, Ingest := "", SponsorID := "" }

/-- Modelled from the spec: `utils.StructToMap` is not in src; a character's
hash has one field per attribute other than its id. -/
def Character.toMap (c : Character) : Fields :=
  [("name", .str c.Name), ("role", .int c.Role), ("room", .str c.Room), ("x", .num c.X),
   ("y", .num c.Y), ("ingest", .str c.Ingest), ("sponsorId", .str c.SponsorID)]

/-- Modelled from the spec: `utils.Bind` is not in src; it fills a zero
character from a hash, the inverse of `Character.toMap`. -/
def BindCharacter (res : Fields) : Character :=
  { ID := "", Name := fieldString "name" res, Role := fieldInt "role" res,
    Room := fieldString "room" res, X := fieldNum "x" res, Y := fieldNum "y" res,
    Ingest := fieldString "ingest" res, SponsorID := fieldString "sponsorId" res }

/-- Modelled from the spec: `models.Element` is not in src. The fields are those
hub.go names. -/
structure Element where
  ID : String
  Path : String
  State : Int
  Action : Int
  ChangingImagePath : Bool
  ChangingPaths : String
  ChangingInterval : Int
  deriving DecidableEq

/-- Modelled from the spec: `utils.StructToMap` on an element. -/
def Element.toMap (e : Element) : Fields :=
  [("path", .str e.Path), ("state", .int e.State), ("action", .int e.Action),
   ("changingImagePath", .bool e.ChangingImagePath), ("changingPaths", .str e.ChangingPaths),
   ("changingInterval", .int e.ChangingInterval)]

/-- Modelled from the spec: `utils.Bind` into a zero element. -/
def BindElement (res : Fields) : Element :=
  { ID := "", Path := fieldString "path" res, State := fieldInt "state" res,
    Action := fieldInt "action" res, ChangingImagePath := fieldBool "changingImagePath" res,
    ChangingPaths := fieldString "changingPaths" res,
    ChangingInterval := fieldInt "changingInterval" res }

/-- Modelled from the spec: the action `models.OpenJukebox` is not in src; its
number is not used. -/
def OpenJukebox : Int := 1

/-- Modelled from the spec: `models.QueueSubscriber` is not in src. Its id, and
its other attributes in hash form. -/
structure QueueSubscriber where
  ID : String
  fields : Fields
  deriving DecidableEq

/-- Modelled from the spec: the song of a `SongPacket` is not in src. The fields
are those hub.go names. -/
structure Song where
  VidCode : String
  Duration : Int
  Title : String
  ThumbnailURL : String
  deriving DecidableEq

/-- Modelled from the spec: `utils.StructToMap` on a song. -/
def Song.toMap (s : Song) : Fields :=
  [("vidCode", .str s.VidCode), ("duration", .int s.Duration), ("title", .str s.Title),
   ("thumbnailUrl", .str s.ThumbnailURL)]

/-- The packet `packet.JoinPacket` (join.go). -/
structure JoinPacket where
  Type_ : String
  Name : String
  QuillToken : String
  Token : String
  Email : String
  Code : Int
  Character : Option Character
  deriving DecidableEq

/-- Modelled from the spec: `packet.TeleportPacket` is not in src. The fields are
those hub.go names. -/
structure TeleportPacket where
  Type_ : String
  From : String
  To : String
  X : ℚ
  Y : ℚ
  Character : Option Character
  deriving DecidableEq

/-- Modelled from the spec: `packet.NewInitPacket` is not in src. The init
packet is given by the arguments it is built from and its `FirstTime` flag; the
room payload it reads from the store is not represented. -/
structure InitPacket where
  CharacterID : String
  Room : String
  NeedsInit : Bool
  FirstTime : Bool
  deriving DecidableEq

/-- Modelled from the spec: of the packet types only `JoinPacket` is in src. The
packets of the protocol with the fields hub.go names, client to server first,
then the ones only the server builds. A packet on the wire is identified with
its value; its JSON type is that of its constructor, except that a `JoinPacket`
("join" or "auth") and a `TeleportPacket` ("teleport" or "teleport_home") carry
it in `Type_`. Hallways, settings, locations and stored messages are kept in
hash form. -/
inductive Packet
  | AddEmail (Email : String) (Role : Int) (SponsorID : String)
  | Chat (Message Room ID : String)
  | ElementToggle (ID : String)
  | ElementUpdate (Room ID : String) (Element : Element)
  | EmailCode (Email : String) (Role : Int)
  | Event (ID : String)
  | FriendRequest (RecipientID SenderID : String)
  | GetAchievements
  | GetMap
  | GetMessages (Recipient : String)
  | HallwayAdd (Room ID : String) (Hallway : Fields)
  | HallwayDelete (Room ID : String)
  | HallwayUpdate (Room ID : String) (Hallway : Fields)
  | Join (p : JoinPacket)
  | Message (From To Text : String)
  | Move (X Y : ℚ) (Room ID : String)
  | Register (Name PhoneNumber : String) (BrowserSubscription : Option String)
  | Settings (Settings : Fields)
  | Song (Song : Song)
  | Status (ID : String) (Online Active : Bool)
  | Teleport (p : TeleportPacket)
  | QueueJoin (SponsorID : String)
  | QueueRemove (SponsorID CharacterID : String)
  | QueueSubscribe (SponsorID : String)
  | QueueUnsubscribe (SponsorID : String)
  | UpdateMap (Location : Fields)
  | Leave (Character : Option Character) (Room : String)
  | Init (p : InitPacket)
  | Error (Code : Int)
  | QueueUpdateHacker (SponsorID : String) (Position : Int) (URL : String)
  | QueueUpdateSponsor (Subscribers : List QueueSubscriber)
  | AchievementNotification (ID : String)
  | FriendUpdate (RecipientID SenderID : String)
  | Achievements (ID : String)
  | Map
  | Messages (Messages : List Fields) (Recipient : String)
  | Other (Type_ : String)
  deriving DecidableEq

/-- The constructor `packet.NewJoinPacket` (join.go). -/
def NewJoinPacket (character : Option Character) : JoinPacket :=
  { Type_ := "join", Name := "", QuillToken := "", Token := "", Email := "", Code := 0,
    Character := character }

/-- Modelled from the spec: the constructor `packet.NewInitPacket` is not in src;
the packet is given by its arguments. -/
def NewInitPacket (characterID room : String) (needsInit : Bool) : InitPacket :=
  { CharacterID := characterID, Room := room, NeedsInit := needsInit, FirstTime := false }

/-! ## Clients and the hub -/

/-- A connected client: its id, its character once authenticated, and the
packets queued on its `send` channel, oldest first. -/
structure Client where
  id : String
  character : Option Character
  send : List Packet
  deriving DecidableEq

/-- What one instance holds and reaches: the registry `h.clients`, the store,
and the packets it has published to its peers (`db.Publish`), oldest first. -/
structure State where
  clients : List Client
  db : Store
  published : List Packet

/-- A Go panic or fatal exit. The last one marks a message whose sender id is not
in the registry, a case the pointer `m.sender` does not have. -/
inductive Fault
  | nilPointer
  | indexOutOfRange
  | typeAssertion
  | explicitPanic
  | unregisteredSender
  deriving DecidableEq

/-- The identity an SSO exchange returns. -/
structure QuillData where
  admitted : Bool
  id : Option String
  deriving DecidableEq

/-- The outcome of the SSO exchange of a Join with a Quill token: the request
failed, the body is no JSON, the JSON lacks the admission status, or an identity. -/
inductive QuillResponse
  | failed
  | invalidJSON
  | malformed
  | data (d : QuillData)
  deriving DecidableEq

/-- The outcome of `jwt.Parse`: an error, a token that is not valid, or the
`id` claim of a valid one (absent when the claim is no string). -/
inductive JwtResult
  | error
  | notValid
  | claims (id : Option String)
  deriving DecidableEq

/-- A video of the metadata lookup: the fields hub.go reads. -/
structure Video where
  Duration : String
  Title : String
  ThumbnailURL : String
  deriving DecidableEq

/-- What one call of `processMessage` gets from outside the hub and the store,
and the functions of this repository that are not in src. -/
structure Ext where
  /-- The result of `db.GetIngestID()`. -/
  ingestID : String
  /-- The result of `uuid.New().String()`. -/
  uuid : String
  /-- The result of `rand.Intn(1000000)`. -/
  rand : Nat
  /-- The configured `achievements.num_events`. -/
  numEvents : Int
  /-- The constructor `models.NewCharacter`. -/
  NewCharacter : String → Character
  /-- The constructor `models.NewCharacterFromQuill`. -/
  NewCharacterFromQuill : QuillData → Character
  /-- The constructor `models.NewQueueSubscriber`. -/
  NewQueueSubscriber : Character → QueueSubscriber
  /-- The function `db.CreateRoom(id, db.Personal)`. -/
  CreateRoom : String → Store → Store
  /-- The SSO exchange. -/
  quill : String → QuillResponse
  /-- The token validation. -/
  jwt : String → JwtResult
  /-- The video lookup; `none` when the call fails. -/
  youtube : String → Option (List Video)
  /-- Whether `webpush.SendNotification` returned a response. -/
  webpush : Bool
  /-- The method `PermissionCheck` of the packets other than `JoinPacket`. -/
  PermissionCheck : Packet → String → Role → Bool

/-- Modelled from the spec: `utils.IsASCII` is not in src; every byte is below 128. -/
def IsASCII (s : String) : Bool :=
  s.data.all (fun c => c.toNat < 128)

/-- One iteration of the loop of `Hub.SendBytes` (hub.go 118-141). -/
def sendToClient (room : String) (msg : Packet) (client : Client) : Client :=
  match client.character with
  | none => client
  | some character =>
    if room = "*" then { client with send := client.send ++ [msg] }
    else if character.Room = room then { client with send := client.send ++ [msg] }
    else if Contains room "character:" && (Split room ':')[1]? == some character.ID then
      { client with send := client.send ++ [msg] }
    else client

/-- The fan-out `Hub.SendBytes` over the registry. -/
def SendBytes (room : String) (msg : Packet) (clients : List Client) : List Client :=
  clients.map (sendToClient room msg)

/-- The fan-out `Hub.SendBytes` on the state. -/
def State.SendBytes (room : String) (msg : Packet) (s : State) : State :=
  { s with clients := Playground.SendBytes room msg s.clients }

/-- A send on the channel of the client `id`: `m.sender.send <- data`. -/
def State.sendDirect (id : String) (msg : Packet) (s : State) : State :=
  { s with clients := s.clients.map (fun c => if c.id = id then { c with send := c.send ++ [msg] } else c) }

/-- The same packet sent to `character:<id>` for each id of a list. -/
def State.sendToCharacters (ids : List String) (msg : Packet) (s : State) : State :=
  ids.foldl (fun st id => st.SendBytes ("character:" ++ id) msg) s

/-- The routing `Hub.ProcessRedisMessage` by the type of the packet (hub.go 189-218). -/
def ProcessRedisMessage (msg : Packet) (clients : List Client) : Except Fault (List Client) :=
  match msg with
  | .Message From To _ =>
    let clients := SendBytes ("character:" ++ To) msg clients
    if To ≠ From then .ok (SendBytes ("character:" ++ From) msg clients) else .ok clients
  | .Chat _ Room _ => .ok (SendBytes Room msg clients)
  | .Move _ _ Room _ => .ok (SendBytes Room msg clients)
  | .Leave _ Room => .ok (SendBytes Room msg clients)
  | .Join p =>
    if p.Type_ = "join" then
      match p.Character with
      | none => .error .typeAssertion
      | some character => .ok (SendBytes character.Room msg clients)
    else .ok clients
  | .ElementUpdate Room _ _ => .ok (SendBytes Room msg clients)
  | .HallwayAdd Room _ _ => .ok (SendBytes Room msg clients)
  | .HallwayDelete Room _ => .ok (SendBytes Room msg clients)
  | .HallwayUpdate Room _ _ => .ok (SendBytes Room msg clients)
  | .Song _ => .ok (SendBytes "*" msg clients)
  | .Teleport p =>
    if p.Type_ = "teleport" ∨ p.Type_ = "teleport_home" then
      let clients := SendBytes p.From (.Leave p.Character p.From) clients
      .ok (SendBytes p.To (.Join (NewJoinPacket p.Character)) clients)
    else .ok clients
  | _ => .ok clients

/-- The publication `Hub.Send`: to the peers, then to the local clients (hub.go 108-115). -/
def Send (msg : Packet) (s : State) : Except Fault State :=
  match ProcessRedisMessage msg s.clients with
  | .error e => .error e
  | .ok clients => .ok { s with published := s.published ++ [msg], clients := clients }

/-- Modelled from the spec: `utils.Bind` into a zero queue subscriber. -/
def BindQueueSubscriber (res : Fields) : QueueSubscriber :=
  { ID := "", fields := res }

/-- The loop of `Hub.sendSponsorQueueUpdate` over the hackers of the queue, from
index `i` on: the subscribers filled so far and the registry (hub.go 164-177). -/
def queueLoop (sponsorID : String) :
    Nat → List (String × Fields) → List QueueSubscriber × List Client →
      List QueueSubscriber × List Client
  | _, [], acc => acc
  | i, (hackerID, subscriberRes) :: rest, (subscribers, clients) =>
    let subscriber := { BindQueueSubscriber subscriberRes with ID := hackerID }
    let hackerUpdatePacket := Packet.QueueUpdateHacker sponsorID ((i : Int) + 1) ""
    queueLoop sponsorID (i + 1) rest
      (subscribers ++ [subscriber], SendBytes ("character:" ++ hackerID) hackerUpdatePacket clients)

/-- The snapshot push `Hub.sendSponsorQueueUpdate` (hub.go 144-186). -/
def sendSponsorQueueUpdate (sponsorID : String) (s : State) : State :=
  let hackerIDs := s.db.LRangeAll ("sponsor:" ++ sponsorID ++ ":hackerqueue")
  let sponsorIDs := s.db.SMembers ("sponsor:" ++ sponsorID ++ ":subscribed")
  let hackerCmds := hackerIDs.map (fun hackerID => (hackerID, s.db.HGetAll ("subscriber:" ++ hackerID)))
  let looped := queueLoop sponsorID 0 hackerCmds ([], s.clients)
  let sponsorUpdatePacket := Packet.QueueUpdateSponsor looped.1
  let clients :=
    sponsorIDs.foldl (fun cs sponsorID => SendBytes ("character:" ++ sponsorID) sponsorUpdatePacket cs)
      looped.2
  { s with clients := clients }

/-! ## The packet handlers: the cases of the type switch of `Hub.processMessage` -/

/-- The case `packet.AddEmailPacket` (hub.go 245-264). -/
def handleAddEmail (Email : String) (Role : Int) (SponsorID : String) (s : State) :
    Except Fault State :=
  let chosen : String × Store :=
    if Role = SponsorRep then
      ("sponsor_emails", s.db.HSet "emailToSponsor" Email (.str SponsorID))
    else if Role = Mentor then ("mentor_emails", s.db)
    else if Role = Organizer then ("organizer_emails", s.db)
    else ("", s.db)
  if chosen.1 = "" then .ok { s with db := chosen.2 }
  else .ok { s with db := chosen.2.SAdd chosen.1 (TrimSpace Email) }

/-- The case `packet.ChatPacket` (hub.go 265-275). -/
def handleChat (Message : String) (sender : Client) (s : State) : Except Fault State :=
  if !IsASCII Message then .ok s
  else
    match sender.character with
    | none => .error .nilPointer
    | some character => Send (.Chat Message character.Room character.ID) s

/-- The case `packet.ElementTogglePacket` (hub.go 276-294). -/
def handleElementToggle (ID : String) (sender : Client) (s : State) : Except Fault State :=
  let elementRes := s.db.HGetAll ("element:" ++ ID)
  let element : Element := { BindElement elementRes with ID := ID }
  let numStates : Int := (Count element.Path ',' : Nat) + 1
  let element : Element :=
    if element.State < numStates - 1 then { element with State := element.State + 1 }
    else { element with State := 0 }
  let db := s.db.HSet ("element:" ++ ID) "state" (.int element.State)
  match sender.character with
  | none => .error .nilPointer
  | some character => Send (.ElementUpdate character.Room ID element) { s with db := db }

/-- The case `packet.ElementUpdatePacket` (hub.go 295-311). -/
def handleElementUpdate (ID : String) (Element : Element) (sender : Client) (s : State) :
    Except Fault State :=
  match sender.character with
  | none => .error .nilPointer
  | some character =>
    let Element : Playground.Element :=
      if Element.Path = "tiles/blue1.svg" then
        { Element with
          ChangingImagePath := true
          ChangingPaths := "tiles/blue1.svg,tiles/blue2.svg,tiles/blue3.svg,tiles/blue4.svg,tiles/green1.svg,tiles/green2.svg,tiles/pink1.svg,tiles/pink2.svg,tiles/pink3.svg,tiles/pink4.svg,tiles/yellow1.svg"
          ChangingInterval := 2000 }
      else Element
    let Element : Playground.Element :=
      if Element.Path = "djbooth.svg" then { Element with Action := OpenJukebox } else Element
    let db := s.db.HSetMap ("element:" ++ ID) Element.toMap
    Send (.ElementUpdate character.Room ID Element) { s with db := db }

/-- The case `packet.EmailCodePacket` (hub.go 312-335). -/
def handleEmailCode (ext : Ext) (Email : String) (Role : Int) (s : State) : Except Fault State :=
  let isValidEmail : Bool :=
    if Role = SponsorRep then s.db.SIsMember "sponsor_emails" Email
    else if Role = Mentor then s.db.SIsMember "mentor_emails" Email
    else if Role = Organizer then s.db.SIsMember "organizer_emails" Email
    else false
  if !isValidEmail then .ok s
  else
    let code : Int := ((ext.rand % 1000000 : Nat) : Int)
    .ok { s with db := s.db.SAdd "login_requests" (Email ++ "," ++ Itoa code) }

/-- The case `packet.EventPacket` (hub.go 336-361). -/
def handleEvent (ext : Ext) (ID : String) (sender : Client) (s : State) : Except Fault State :=
  let isValidEvent := s.db.SIsMember "events" ID
  if !isValidEvent then .ok s
  else
    match sender.character with
    | none => .error .nilPointer
    | some character =>
      let db := s.db.SAdd ("event:" ++ ID ++ ":attendees") character.ID
      let db := db.SAdd ("character:" ++ character.ID ++ ":events") ID
      let incr := db.HIncrBy ("character:" ++ character.ID ++ ":achievements") "events" 1
      let numEvents := incr.2.1
      if numEvents = ext.numEvents ∧ incr.2.2 = true then
        .ok ({ s with db := incr.1 }.SendBytes ("character:" ++ character.ID)
          (.AchievementNotification "events"))
      else .ok { s with db := incr.1 }

/-- The case `packet.FriendRequestPacket` (hub.go 362-398). -/
def handleFriendRequest (RecipientID SenderID : String) (sender : Client) (s : State) :
    Except Fault State :=
  if RecipientID = SenderID then .ok s
  else
    match sender.character with
    | none => .error .nilPointer
    | some character =>
      let isExistingRequest := s.db.SIsMember ("character:" ++ character.ID ++ ":requests") RecipientID
      if isExistingRequest then
        let db := s.db.SRem ("character:" ++ character.ID ++ ":requests") RecipientID
        let db := db.SAdd ("character:" ++ character.ID ++ ":friends") RecipientID
        let db := db.SAdd ("character:" ++ RecipientID ++ ":friends") character.ID
        let s1 := { s with db := db }
        let s2 := s1.SendBytes ("character:" ++ RecipientID) (.FriendUpdate RecipientID character.ID)
        .ok (s2.SendBytes ("character:" ++ character.ID) (.FriendUpdate character.ID RecipientID))
      else
        let db := s.db.SAdd ("character:" ++ RecipientID ++ ":requests") character.ID
        let s1 := { s with db := db }
        .ok (s1.SendBytes ("character:" ++ RecipientID) (.FriendUpdate RecipientID character.ID))

/-- The case `packet.GetAchievementsPacket` (hub.go 399-403). -/
def handleGetAchievements (sender : Client) (s : State) : Except Fault State :=
  match sender.character with
  | none => .error .nilPointer
  | some character =>
    .ok (s.SendBytes ("character:" ++ character.ID) (.Achievements character.ID))

/-- The case `packet.GetMapPacket` (hub.go 404-408). -/
def handleGetMap (sender : Client) (s : State) : Except Fault State :=
  match sender.character with
  | none => .error .nilPointer
  | some character => .ok (s.SendBytes ("character:" ++ character.ID) .Map)

/-- The case `packet.GetMessagesPacket` (hub.go 409-446). -/
def handleGetMessages (Recipient : String) (sender : Client) (s : State) : Except Fault State :=
  match sender.character with
  | none => .error .nilPointer
  | some character =>
    let conversationKey := getMessagesConversationKey character.ID Recipient
    let messageIDs := s.db.LRangeLast conversationKey 100
    let messages := messageIDs.map (fun messageID => s.db.HGetAll ("message:" ++ messageID))
    .ok (s.SendBytes ("character:" ++ character.ID) (.Messages messages Recipient))

/-- The case `packet.HallwayAddPacket` (hub.go 447-457). -/
def handleHallwayAdd (ext : Ext) (Hallway : Fields) (sender : Client) (s : State) :
    Except Fault State :=
  match sender.character with
  | none => .error .nilPointer
  | some character =>
    let db := s.db.HSetMap ("hallway:" ++ ext.uuid) Hallway
    let db := db.SAdd ("room:" ++ character.Room ++ ":hallways") ext.uuid
    Send (.HallwayAdd character.Room ext.uuid Hallway) { s with db := db }

/-- The case `packet.HallwayDeletePacket` (hub.go 458-467). -/
def handleHallwayDelete (ID : String) (sender : Client) (s : State) : Except Fault State :=
  match sender.character with
  | none => .error .nilPointer
  | some character =>
    let db := s.db.Del ("hallway:" ++ ID)
    let db := db.SRem ("room:" ++ character.Room ++ ":hallways") ID
    Send (.HallwayDelete character.Room ID) { s with db := db }

/-- The case `packet.HallwayUpdatePacket` (hub.go 468-474). -/
def handleHallwayUpdate (ID : String) (Hallway : Fields) (sender : Client) (s : State) :
    Except Fault State :=
  match sender.character with
  | none => .error .nilPointer
  | some character =>
    let db := s.db.HSetMap ("hallway:" ++ ID) Hallway
    Send (.HallwayUpdate character.Room ID Hallway) { s with db := db }

/-- A value read back as text by `HGet(...).Result()`; the fields read so are
written as strings only. -/
def Value.text : Value → String
  | .str s => s
  | _ => ""

/-- Modelled from the spec: the constructor `packet.NewStatusPacket` is not in
src; it sets the id and `Online`, and `Active` keeps its zero value. -/
def NewStatusPacket (characterID : String) (online : Bool) : Packet :=
  .Status characterID online false

/-- How far the credential branches of the Join case get (hub.go 485-633): the
handler returned, it panicked, or a character was resolved, with the flag
`firstTime`, the packet, the store, and the commands queued on `pip`. -/
inductive JoinAuth
  | returned (s : State)
  | fault (e : Fault)
  | resolved (character : Character) (firstTime : Bool) (p : JoinPacket) (db : Store)
      (pip : Store → Store)

/-- The credential branches of the case `packet.JoinPacket` (hub.go 485-633). -/
def joinAuthenticate (ext : Ext) (p : JoinPacket) (sender : Client) (s : State) : JoinAuth :=
  if p.Name ≠ "" then
    let character := { ext.NewCharacter p.Name with Ingest := ext.ingestID }
    .resolved character false p (s.db.HSetMap ("character:" ++ character.ID) character.toMap) id
  else if p.QuillToken ≠ "" then
    match ext.quill p.QuillToken with
    | .failed => .fault .nilPointer
    | .invalidJSON => .returned s
    | .malformed => .fault .typeAssertion
    | .data quillData =>
      if !quillData.admitted then .returned s
      else
        match quillData.id with
        | none => .fault .typeAssertion
        | some quillID =>
          match s.db.HGet "quillToCharacter" quillID with
          | none =>
            let character := { ext.NewCharacterFromQuill quillData with ID := ext.uuid }
            .resolved character false p s.db
              (fun db => (db.HSetMap ("character:" ++ character.ID) character.toMap).HSet
                "quillToCharacter" quillID (.str character.ID))
          | some v =>
            let characterID := v.text
            let characterRes := s.db.HGetAll ("character:" ++ characterID)
            .resolved { BindCharacter characterRes with ID := characterID } false p s.db id
  else if p.Token ≠ "" then
    match ext.jwt p.Token with
    | .error => .returned (s.sendDirect sender.id (.Error 1))
    | .notValid => .returned s
    | .claims none => .fault .typeAssertion
    | .claims (some characterID) =>
      let characterRes := s.db.HGetAll ("character:" ++ characterID)
      if characterRes.length = 0 then .returned (s.sendDirect sender.id (.Error 1))
      else .resolved { BindCharacter characterRes with ID := characterID } false p s.db id
  else if p.Email ≠ "" then
    let isValidLoginRequest := s.db.SIsMember "login_requests" (p.Email ++ "," ++ Itoa p.Code)
    if !isValidLoginRequest then .returned s
    else
      match s.db.HGet "emailToCharacter" p.Email with
      | none =>
        let character := { ext.NewCharacter "Player" with ID := ext.uuid }
        let isSponsor := s.db.SIsMember "sponsor_emails" p.Email
        let sponsorID := match s.db.HGet "emailToSponsor" p.Email with
          | some v => v.text
          | none => ""
        let isMentor := s.db.SIsMember "mentor_emails" p.Email
        let isOrganizer := s.db.SIsMember "organizer_emails" p.Email
        let character : Character :=
          if isSponsor then { character with Role := SponsorRep, SponsorID := sponsorID }
          else if isMentor then { character with Role := Mentor }
          else if isOrganizer then { character with Role := Organizer }
          else character
        .resolved character true { p with Email := "", Code := 0 } s.db
          (fun db => (db.HSetMap ("character:" ++ character.ID) character.toMap).HSet
            "emailToCharacter" p.Email (.str character.ID))
      | some v =>
        let characterID := v.text
        let characterRes := s.db.HGetAll ("character:" ++ characterID)
        .resolved { BindCharacter characterRes with ID := characterID } false
          { p with Email := "", Code := 0 } s.db id
  else .returned s

/-- The case `packet.JoinPacket` (hub.go 475-699). -/
def handleJoin (ext : Ext) (p : JoinPacket) (sender : Client) (s : State) : Except Fault State :=
  match joinAuthenticate ext p sender s with
  | .returned s1 => .ok s1
  | .fault e => .error e
  | .resolved character firstTime p db pip =>
    let initPacket : InitPacket :=
      { NewInitPacket character.ID character.Room true with FirstTime := firstTime }
    let pip : Store → Store :=
      if p.Type_ = "join" then
        fun d => (pip d).SAdd ("room:" ++ character.Room ++ ":characters") character.ID
      else pip
    let pip : Store → Store :=
      fun d => (pip d).SAdd ("ingest:" ++ character.Ingest ++ ":characters") character.ID
    let character : Character := { character with Ingest := ext.ingestID }
    let pip : Store → Store :=
      fun d => (pip d).HSet ("character:" ++ character.ID) "ingest" (.str ext.ingestID)
    if character.ID = "" then .ok { s with db := db }
    else
      let pip : Store → Store :=
        fun d => (pip d).Set ("character:" ++ character.ID ++ ":active") "true"
      let db := pip db
      let teammateIDs := db.SMembers ("character:" ++ character.ID ++ ":teammates")
      let friendIDs := db.SMembers ("character:" ++ character.ID ++ ":friends")
      let statusRes := NewStatusPacket character.ID true
      let s1 := ({ s with db := db }.sendToCharacters teammateIDs statusRes).sendToCharacters
        friendIDs statusRes
      let s2 : State :=
        { s1 with clients := s1.clients.map (fun c =>
            if c.id = sender.id then { c with character := some character } else c) }
      if p.Type_ = "join" then
        let p : JoinPacket := { p with Name := "", QuillToken := "", Token := "" }
        let s3 := s2.sendDirect sender.id (.Init initPacket)
        let p : JoinPacket := { p with Character := some character }
        Send (.Join p) s3
      else .ok s2

/-- The case `packet.MessagePacket` (hub.go 700-732). The stored message is the
hash of the sender, the recipient and the text. -/
def handleMessage (ext : Ext) (To Text : String) (sender : Client) (s : State) :
    Except Fault State :=
  match sender.character with
  | none => .error .nilPointer
  | some character =>
    let From := character.ID
    if !IsASCII Text then .ok s
    else
      let messageID := ext.uuid
      let db := s.db.HSetMap ("message:" ++ messageID)
        [("from", .str From), ("to", .str To), ("text", .str Text)]
      let conversationKey := messageConversationKey From To
      let db := db.RPush conversationKey messageID
      Send (.Message From To Text) { s with db := db }

/-- The case `packet.MovePacket` (hub.go 733-754). -/
def handleMove (X Y : ℚ) (sender : Client) (s : State) : Except Fault State :=
  match sender.character with
  | none => .ok s
  | some character =>
    let db := s.db.HSet ("character:" ++ character.ID) "x" (.num X)
    let db := db.HSet ("character:" ++ character.ID) "y" (.num Y)
    Send (.Move X Y character.Room character.ID) { s with db := db }

/-- The case `packet.RegisterPacket` (hub.go 759-792). -/
def handleRegister (ext : Ext) (Name PhoneNumber : String) (BrowserSubscription : Option String)
    (sender : Client) (s : State) : Except Fault State :=
  match sender.character with
  | none => .error .nilPointer
  | some character =>
    let db := if Name ≠ "" then s.db.HSet ("character:" ++ character.ID) "name" (.str Name) else s.db
    let db :=
      if PhoneNumber ≠ "" then
        db.HSet ("character:" ++ character.ID ++ ":settings") "phoneNumber" (.str PhoneNumber)
      else db
    if BrowserSubscription.isSome && !ext.webpush then .error .nilPointer
    else
      let room := match db.HGet ("character:" ++ character.ID) "room" with
        | some v => v.text
        | none => ""
      .ok ({ s with db := db }.SendBytes ("character:" ++ character.ID)
        (.Init (NewInitPacket character.ID room true)))

/-- The case `packet.SettingsPacket` (hub.go 793-795); the bytes echoed are the packet. -/
def handleSettings (Settings : Fields) (sender : Client) (s : State) : Except Fault State :=
  match sender.character with
  | none => .error .nilPointer
  | some character =>
    let db := s.db.HSetMap ("character:" ++ character.ID ++ ":settings") Settings
    .ok ({ s with db := db }.SendBytes ("character:" ++ character.ID) (.Settings Settings))

/-- Go `strings.Index(s, sep)` for a one-character separator: -1 when absent. -/
def Index (s : String) (sep : Char) : Int :=
  if sep ∈ s.data then (s.data.indexOf sep : Nat) else -1

/-- Go slice `s[lo:hi]`: `none` when the bounds are out of range. -/
def slice (s : String) (lo hi : Int) : Option String :=
  if 0 ≤ lo ∧ lo ≤ hi ∧ hi ≤ s.data.length then
    some (String.mk ((s.data.take hi.toNat).drop lo.toNat))
  else none

/-- The body of the loop over the videos of the Song case (hub.go 812-831). -/
def songVideo (song : Song) (video : Video) : Except Fault Song :=
  let duration := video.Duration
  let minIndex := Index duration 'M'
  let secIndex := Index duration 'S'
  match slice duration 2 minIndex with
  | none => .error .indexOutOfRange
  | some minuteText =>
    let minutes := (Atoi minuteText).1
    match slice duration (minIndex + 1) secIndex with
    | none => .error .indexOutOfRange
    | some secondText =>
      let seconds := Atoi secondText
      if !seconds.2 then .error .explicitPanic
      else
        .ok { song with Duration := minutes * 60 + seconds.1, Title := video.Title,
                        ThumbnailURL := video.ThumbnailURL }

/-- The loop over the videos of the Song case. -/
def songVideos (song : Song) : List Video → Except Fault Song
  | [] => .ok song
  | video :: rest =>
    match songVideo song video with
    | .error e => .error e
    | .ok song1 => songVideos song1 rest

/-- The case `packet.SongPacket` (hub.go 796-845). -/
def handleSong (ext : Ext) (Song : Song) (s : State) : Except Fault State :=
  match ext.youtube Song.VidCode with
  | none => .error .explicitPanic
  | some items =>
    match songVideos Song items with
    | .error e => .error e
    | .ok song =>
      let songID := ext.uuid
      let db := s.db.HSetMap ("song:" ++ songID) song.toMap
      let db := db.RPush "songs" songID
      Send (.Song song) { s with db := db }

/-- The case `packet.StatusPacket` (hub.go 846-878). -/
def handleStatus (Active : Bool) (sender : Client) (s : State) : Except Fault State :=
  match sender.character with
  | none => .ok s
  | some character =>
    let db :=
      if Active then s.db.Set ("character:" ++ character.ID ++ ":active") "true"
      else s.db.Set ("character:" ++ character.ID ++ ":active") "false"
    let teammateIDs := db.SMembers ("character:" ++ character.ID ++ ":teammates")
    let friendIDs := db.SMembers ("character:" ++ character.ID ++ ":friends")
    let data := Packet.Status character.ID true Active
    .ok (({ s with db := db }.sendToCharacters teammateIDs data).sendToCharacters friendIDs data)

/-- The coordinate clamp of the Teleport case (hub.go 882-888). -/
def clampCoordinate (c : ℚ) : ℚ :=
  if c ≤ 0 ∨ c ≥ 1 then 1 / 2 else c

/-- The destination of the Teleport case and the store once it is resolved
(hub.go 892-908). -/
def teleportDestination (ext : Ext) (p : TeleportPacket) (character : Character) (db : Store) :
    String × Store :=
  if p.Type_ = "teleport_home" then
    if character.SponsorID ≠ "" then ("sponsor:" ++ character.SponsorID, db)
    else
      let homeExists := db.SIsMember "rooms" ("home:" ++ character.ID)
      let db := if !homeExists then ext.CreateRoom ("home:" ++ character.ID) db else db
      ("home:" ++ character.ID, db)
  else (p.To, db)

/-- The case `packet.TeleportPacket` (hub.go 879-940). -/
def handleTeleport (ext : Ext) (p : TeleportPacket) (sender : Client) (s : State) :
    Except Fault State :=
  match sender.character with
  | none => .error .nilPointer
  | some character =>
    let p : TeleportPacket := { p with From := character.Room }
    let p : TeleportPacket := { p with X := clampCoordinate p.X }
    let p : TeleportPacket := { p with Y := clampCoordinate p.Y }
    let dest := teleportDestination ext p character s.db
    let p : TeleportPacket := { p with To := dest.1 }
    let db := dest.2.HSetMap ("character:" ++ character.ID)
      [("room", .str p.To), ("x", .num p.X), ("y", .num p.Y)]
    let db := db.SRem ("room:" ++ character.Room ++ ":characters") character.ID
    let initPacket := NewInitPacket character.ID p.To false
    let s1 := { s with db := db }.sendDirect sender.id (.Init initPacket)
    let s2 : State :=
      { s1 with clients := s1.clients.map (fun c =>
          if c.id = sender.id then { c with character := some { character with Room := p.To } }
          else c) }
    let characterRes := s2.db.HGetAll ("character:" ++ character.ID)
    let db := s2.db.SAdd ("room:" ++ p.To ++ ":characters") character.ID
    let bound : Character := { BindCharacter characterRes with ID := character.ID }
    let p : TeleportPacket := { p with Character := some bound }
    Send (.Teleport p) { s2 with db := db }

/-- The case `packet.QueueJoinPacket` (hub.go 941-959). -/
def handleQueueJoin (ext : Ext) (SponsorID : String) (sender : Client) (s : State) :
    Except Fault State :=
  match sender.character with
  | none => .error .nilPointer
  | some character =>
    let hackerIDs := s.db.LRangeAll ("sponsor:" ++ SponsorID ++ ":hackerqueue")
    if hackerIDs.any (fun hackerID => hackerID = character.ID) then .ok s
    else
      let db := s.db.RPush ("sponsor:" ++ SponsorID ++ ":hackerqueue") character.ID
      let db := db.HSet ("character:" ++ character.ID) "queueId" (.str SponsorID)
      let subscriber := ext.NewQueueSubscriber character
      let db := db.HSetMap ("subscriber:" ++ character.ID) subscriber.fields
      .ok (sendSponsorQueueUpdate SponsorID { s with db := db })

/-- The case `packet.QueueRemovePacket` (hub.go 960-974). -/
def handleQueueRemove (SponsorID CharacterID : String) (sender : Client) (s : State) :
    Except Fault State :=
  let db := s.db.LRemAll ("sponsor:" ++ SponsorID ++ ":hackerqueue") CharacterID
  let db := db.HSet ("character:" ++ CharacterID) "queueId" (.str "")
  let s1 := sendSponsorQueueUpdate SponsorID { s with db := db }
  match sender.character with
  | none => .error .nilPointer
  | some character =>
    if character.Role = SponsorRep then
      .ok (s1.SendBytes ("character:" ++ CharacterID)
        (.QueueUpdateHacker SponsorID 0 "https://google.com"))
    else .ok s1

/-- The case `packet.QueueSubscribePacket` (hub.go 975-979). -/
def handleQueueSubscribe (SponsorID : String) (sender : Client) (s : State) : Except Fault State :=
  match sender.character with
  | none => .error .nilPointer
  | some character =>
    let db := s.db.SAdd ("sponsor:" ++ SponsorID ++ ":subscribed") character.ID
    .ok (sendSponsorQueueUpdate SponsorID { s with db := db })

/-- The case `packet.QueueUnsubscribePacket` (hub.go 980-981). -/
def handleQueueUnsubscribe (SponsorID : String) (sender : Client) (s : State) :
    Except Fault State :=
  match sender.character with
  | none => .error .nilPointer
  | some character =>
    .ok { s with db := s.db.SRem ("sponsor:" ++ SponsorID ++ ":subscribed") character.ID }

/-- The case `packet.UpdateMapPacket` (hub.go 982-994). -/
def handleUpdateMap (Location : Fields) (sender : Client) (s : State) : Except Fault State :=
  match sender.character with
  | none => .error .nilPointer
  | some character =>
    let locationID := character.ID
    let db := s.db.HSetMap ("location:" ++ locationID) Location
    let db := db.SAdd "locations" locationID
    .ok ({ s with db := db }.SendBytes ("character:" ++ character.ID) .Map)

/-! ## The dispatcher `Hub.processMessage` -/

/-- An inbound message: the id of the registered client `m.sender` points to, and
the result of `packet.ParsePacket(m.msg)` (not in src), `none` when it fails. -/
structure SocketMessage where
  sender : String
  msg : Option Packet

/-- The method `PermissionCheck`: always true for a `JoinPacket` (join.go 33-35),
the environment's for the other packets. -/
def PermissionCheck (ext : Ext) (p : Packet) (characterID : String) (role : Role) : Bool :=
  match p with
  | .Join _ => true
  | _ => ext.PermissionCheck p characterID role

/-- The type switch of `Hub.processMessage` (hub.go 244-995). The Event and
FriendRequest cases read the packet again from the same bytes. -/
def dispatch (ext : Ext) (p : Packet) (sender : Client) (s : State) : Except Fault State :=
  match p with
  | .AddEmail Email Role SponsorID => handleAddEmail Email Role SponsorID s
  | .Chat Message _ _ => handleChat Message sender s
  | .ElementToggle ID => handleElementToggle ID sender s
  | .ElementUpdate _ ID Element => handleElementUpdate ID Element sender s
  | .EmailCode Email Role => handleEmailCode ext Email Role s
  | .Event ID => handleEvent ext ID sender s
  | .FriendRequest RecipientID SenderID => handleFriendRequest RecipientID SenderID sender s
  | .GetAchievements => handleGetAchievements sender s
  | .GetMap => handleGetMap sender s
  | .GetMessages Recipient => handleGetMessages Recipient sender s
  | .HallwayAdd _ _ Hallway => handleHallwayAdd ext Hallway sender s
  | .HallwayDelete _ ID => handleHallwayDelete ID sender s
  | .HallwayUpdate _ ID Hallway => handleHallwayUpdate ID Hallway sender s
  | .Join p => handleJoin ext p sender s
  | .Message _ To Text => handleMessage ext To Text sender s
  | .Move X Y _ _ => handleMove X Y sender s
  | .Register Name PhoneNumber BrowserSubscription =>
    handleRegister ext Name PhoneNumber BrowserSubscription sender s
  | .Settings Settings => handleSettings Settings sender s
  | .Song Song => handleSong ext Song s
  | .Status _ _ Active => handleStatus Active sender s
  | .Teleport p => handleTeleport ext p sender s
  | .QueueJoin SponsorID => handleQueueJoin ext SponsorID sender s
  | .QueueRemove SponsorID CharacterID => handleQueueRemove SponsorID CharacterID sender s
  | .QueueSubscribe SponsorID => handleQueueSubscribe SponsorID sender s
  | .QueueUnsubscribe SponsorID => handleQueueUnsubscribe SponsorID sender s
  | .UpdateMap Location => handleUpdateMap Location sender s
  | _ => .ok s

/-- The dispatcher `Hub.processMessage` (hub.go 221-996). -/
def processMessage (ext : Ext) (m : SocketMessage) (s : State) : Except Fault State :=
  match m.msg with
  | none => .ok s
  | some p =>
    match s.clients.find? (fun c => c.id = m.sender) with
    | none => .error .unregisteredSender
    | some sender =>
      let characterID : String :=
        match sender.character with
        | some character => character.ID
        | none => ""
      let role : Role :=
        match sender.character with
        | some character => character.Role
        | none => Guest
      if !PermissionCheck ext p characterID role then .ok s
      else dispatch ext p sender s

/-! ## Disconnect (`Hub.disconnectClient`) -/

/-- The disconnect sequence `Hub.disconnectClient` (hub.go 53-90). The client
leaves the registry; its closed channel `client.send` is no longer part of the
state. -/
def disconnectClient (ext : Ext) (client : Client) (s : State) : Except Fault State :=
  match client.character with
  | none => .ok { s with clients := s.clients.filter (fun c => c.id ≠ client.id) }
  | some character =>
    let db := s.db.Del ("character:" ++ character.ID ++ ":active")
    let db := db.HDel ("character:" ++ character.ID) "ingest"
    let db := db.SRem ("ingest:" ++ ext.ingestID ++ ":characters") character.ID
    let teammateIDs := db.SMembers ("character:" ++ character.ID ++ ":teammates")
    let friendIDs := db.SMembers ("character:" ++ character.ID ++ ":friends")
    let room := match db.HGet ("character:" ++ character.ID) "room" with
      | some v => v.text
      | none => ""
    let db := db.SRem ("room:" ++ room ++ ":characters") character.ID
    match Send (.Leave (some character) room) { s with db := db } with
    | .error e => .error e
    | .ok s1 =>
      let res := NewStatusPacket character.ID false
      let s2 := (s1.sendToCharacters teammateIDs res).sendToCharacters friendIDs res
      .ok { s2 with clients := s2.clients.filter (fun c => c.id ≠ client.id) }

/-! ## Leader election (`db.MonitorLeader`) -/

/-- The constant `ingestClientName`. -/
def ingestClientName : String := "ingest"

/-- The loop over the listed clients in one tick of `MonitorLeader`
(connector.go 77-98): the value of `leaderID` after it. -/
def findLeader : List String → Except Fault Int
  | [] => .ok 0
  | client :: rest =>
    let clientParts := Split client ' '
    if clientParts.length < 4 then findLeader rest
    else
      match (Split (clientParts.getD 3 "") '=')[1]? with
      | none => .error .indexOutOfRange
      | some clientName =>
        if clientName ≠ ingestClientName then findLeader rest
        else
          match (Split (clientParts.getD 0 "") '=')[1]? with
          | none => .error .indexOutOfRange
          | some idText => .ok (Atoi idText).1

/-- One tick of `MonitorLeader` (connector.go 70-106) on the listing `clientsRes`
for the instance whose connection id is `ingestID`: whether it goes on to the
leader actions. -/
def leaderTick (clientsRes : String) (ingestID : Int) : Except Fault Bool :=
  let clients := Split clientsRes '\n'
  match findLeader clients with
  | .error e => .error e
  | .ok leaderID => .ok (decide (leaderID = ingestID))

/-- A listed client has the fields the loop of `MonitorLeader` indexes: fewer
than four space-separated fields, or an "=" in field 3 and in field 0. -/
def lineParses (client : String) : Bool :=
  let clientParts := Split client ' '
  decide (clientParts.length < 4) ||
    (decide (2 ≤ (Split (clientParts.getD 3 "") '=').length) &&
      decide (2 ≤ (Split (clientParts.getD 0 "") '=').length))

/-- The connection ids of the listed clients named "ingest", in listing order:
the text after the first "=" of field 0, read by `Atoi`, of each line with at
least four fields whose field 3 has "ingest" after its first "=". -/
def ingestIDs : List String → List Int
  | [] => []
  | client :: rest =>
    let clientParts := Split client ' '
    if clientParts.length < 4 then ingestIDs rest
    else if (Split (clientParts.getD 3 "") '=')[1]? = some ingestClientName then
      (Atoi ((Split (clientParts.getD 0 "") '=').getD 1 "")).1 :: ingestIDs rest
    else ingestIDs rest

/-- A listing of two ingest connections, the newer one first. -/
def listingNewestFirst : String :=
  "id=7 addr=10.0.0.2:5000 fd=9 name=ingest\nid=3 addr=10.0.0.1:5000 fd=8 name=ingest"

/-- A listing as the store gives it, oldest first, with a connection that is no ingest. -/
def listingOldestFirst : String :=
  "id=2 addr=10.0.0.9:4000 fd=7 name=cli\nid=3 addr=10.0.0.1:5000 fd=8 name=ingest\nid=7 addr=10.0.0.2:5000 fd=9 name=ingest\n"

/-! ## Iteration and concrete inputs used by the statements below -/

/-- Whether a packet is an init packet. -/
def Packet.isInit : Packet → Bool
  | .Init _ => true
  | _ => false

/-- The calls `SendBytes(target, packet)` of a list, made in order on a registry. -/
def performSends (sends : List (String × Packet)) (clients : List Client) : List Client :=
  sends.foldl (fun cs send => SendBytes send.1 send.2 cs) clients

/-- The queue-position sends for the hackers of a queue, the first of them at position `i + 1`. -/
def positionSends (sponsorID : String) : Nat → List String → List (String × Packet)
  | _, [] => []
  | i, hackerID :: rest =>
    ("character:" ++ hackerID, .QueueUpdateHacker sponsorID ((i : Int) + 1) "")
      :: positionSends sponsorID (i + 1) rest

/-- The ElementToggle case run `k` times in succession for the client `sender`. -/
def toggleTimes (ID sender : String) : Nat → State → Except Fault State
  | 0, s => .ok s
  | k + 1, s =>
    match s.clients.find? (fun c => c.id = sender) with
    | none => .error .unregisteredSender
    | some c =>
      match handleElementToggle ID c s with
      | .error e => .error e
      | .ok s1 => toggleTimes ID sender k s1

/-- The state of the element `ID` as the handlers read it from the store. -/
def storedElement (ID : String) (s : State) : Element :=
  BindElement (s.db.HGetAll ("element:" ++ ID))

/-- The empty store. -/
def emptyStore : Store :=
  { strings := fun _ => none, hashes := fun _ => [], sets := fun _ => [], lists := fun _ => [] }

/-- A character in the room `room`. -/
def sampleCharacter (id room : String) : Character :=
  { Character.zero with ID := id, Name := id, Role := Hacker, Room := room }

/-- A registered, authenticated client with an empty send queue. -/
def sampleClient (id characterID room : String) : Client :=
  { id := id, character := some (sampleCharacter characterID room), send := [] }

/-- An environment for concrete runs: permission is granted to authenticated senders only. -/
def sampleExt : Ext :=
  { ingestID := "ingest-1"
    uuid := "7d4e1c2a-0000-4000-8000-000000000001"
    rand := 123456
    numEvents := 3
    NewCharacter := fun name => { Character.zero with ID := "fresh", Name := name, Room := "home" }
    NewCharacterFromQuill := fun _ => { Character.zero with Room := "home" }
    NewQueueSubscriber := fun c => { ID := c.ID, fields := [("name", .str c.Name)] }
    CreateRoom := fun id db => db.SAdd "rooms" id
    quill := fun _ => .invalidJSON
    jwt := fun _ => .error
    youtube := fun _ => none
    webpush := true
    PermissionCheck := fun _ characterID _ => decide (characterID ≠ "") }

/-- A lobby with two authenticated clients and an element with two states whose
stored state is 2. -/
def toggleState : State :=
  { clients := [sampleClient "c1" "alice" "lobby", sampleClient "c2" "bob" "lobby"]
    db := (emptyStore.HSet "element:e1" "path" (.str "a.svg,b.svg")).HSet "element:e1" "state" (.int 2)
    published := [] }

/-- The same lobby with the stored state 1, in range for the two states of the path. -/
def toggleStateInRange : State :=
  { toggleState with db := toggleState.db.HSet "element:e1" "state" (.int 1) }

/-- A lobby whose element has three states and the stored state 4. -/
def toggleStateThree : State :=
  { clients := [sampleClient "c1" "alice" "lobby"]
    db := (emptyStore.HSet "element:e7" "path" (.str "a.svg,b.svg,c.svg")).HSet "element:e7" "state" (.int 4)
    published := [] }

/-- Scenario 3 of the spec: alice and bob in the lobby, carol in the expo, the
store holding the same memberships and alice's record. -/
def teleportState : State :=
  { clients := [sampleClient "c1" "alice" "lobby", sampleClient "c2" "bob" "lobby",
                sampleClient "c3" "carol" "expo"]
    db := (((emptyStore.SAdd "room:lobby:characters" "alice").SAdd "room:lobby:characters" "bob").SAdd
            "room:expo:characters" "carol").HSetMap "character:alice"
              (sampleCharacter "alice" "lobby").toMap
    published := [] }

/-- The teleport of scenario 3: to the expo, with both coordinates out of range. -/
def teleportToExpo : TeleportPacket :=
  { Type_ := "teleport", From := "", To := "expo", X := 2, Y := -1, Character := none }

/-- A sponsor queue holding bob, with alice and bob connected and the sponsor
representative rep subscribed. -/
def queueState : State :=
  { clients := [sampleClient "c1" "alice" "lobby", sampleClient "c2" "bob" "lobby",
                { id := "c9", send := []
                  character := some { sampleCharacter "rep" "sponsor:acme" with
                    Role := SponsorRep, SponsorID := "acme" } }]
    db := (emptyStore.RPush "sponsor:acme:hackerqueue" "bob").SAdd "sponsor:acme:subscribed" "rep"
    published := [] }

/-- A registry in which zed has made "character:amy" its current room. -/
def eavesdropRegistry : List Client :=
  [sampleClient "c1" "zed" "character:amy", sampleClient "c2" "amy" "lobby",
   sampleClient "c3" "bob" "lobby", { id := "c4", character := none, send := [] }]

/-- Scenario 4 of the spec: the queue of sponsor acme holds bob then alice, rep is subscribed. -/
def queueOfTwo : State :=
  { queueState with db := queueState.db.RPush "sponsor:acme:hackerqueue" "alice" }

/-- The client of the sponsor representative rep. -/
def repClient : Client :=
  { id := "c9", send := []
    character := some { sampleCharacter "rep" "sponsor:acme" with Role := SponsorRep, SponsorID := "acme" } }

/-- The lobby of scenario 3 with one more client, connected but not authenticated. -/
def guestState : State :=
  { teleportState with
    clients := teleportState.clients ++ [{ id := "c4", character := none, send := [] }] }

/-- A chat message from the unauthenticated client. -/
def guestChat : SocketMessage :=
  { sender := "c4", msg := some (.Chat "hi" "" "") }

/-- The fault a run ended with, if it ended with one. -/
def faultOf {α : Type} : Except Fault α → Option Fault
  | .error e => some e
  | .ok _ => none

/-- The Event case run for each event id of a list, in order, for the client `sender`. -/
def attendEvents (ext : Ext) (sender : String) : List String → State → Except Fault State
  | [], s => .ok s
  | ID :: rest, s =>
    match s.clients.find? (fun c => c.id = sender) with
    | none => .error .unregisteredSender
    | some c =>
      match handleEvent ext ID c s with
      | .error e => .error e
      | .ok s1 => attendEvents ext sender rest s1

/-- A client that is connected but not authenticated. -/
def guestClient (id : String) : Client :=
  { id := id, character := none, send := [] }

/-- Two connected clients, neither authenticated, and amy's address on the mentor list. -/
def loginState : State :=
  { clients := [guestClient "c1", guestClient "c2"]
    db := emptyStore.SAdd "mentor_emails" "amy@x.org"
    published := [] }

/-- A join packet with the given credentials. -/
def joinWith (name quillToken token email : String) (code : Int) : JoinPacket :=
  { Type_ := "join", Name := name, QuillToken := quillToken, Token := token, Email := email,
    Code := code, Character := none }

/-- An environment whose token validation accepts every token as the character "fresh". -/
def tokenExt : Ext :=
  { sampleExt with jwt := fun _ => .claims (some "fresh") }

/-- An environment whose SSO exchange answers with an identity that is not admitted. -/
def notAdmittedExt : Ext :=
  { sampleExt with quill := fun _ => .data { admitted := false, id := some "q1" } }

/-- The store after the run, seen through one set, and the registry's characters. -/
def ingestSets (s : State) : List String × List String × Option Value :=
  (s.db.SMembers "ingest:ingest-1:characters", s.db.SMembers "ingest::characters",
    s.db.HGet "character:fresh" "ingest")

/-- A character joins by name on client c1, disconnects, and joins again by
session token on client c2: the ingest sets and the ingest field after each step,
and after a last disconnect. -/
def rejoinRun : Option (List (List String × List String × Option Value)) := do
  let s1 ← (handleJoin tokenExt (joinWith "Alice" "" "" "" 0) (guestClient "c1") loginState).toOption
  let c1 ← s1.clients.find? (fun c => c.id = "c1")
  let s2 ← (disconnectClient tokenExt c1 s1).toOption
  let c2 ← s2.clients.find? (fun c => c.id = "c2")
  let s3 ← (handleJoin tokenExt (joinWith "" "" "tok" "" 0) c2 s2).toOption
  let c3 ← s3.clients.find? (fun c => c.id = "c2")
  let s4 ← (disconnectClient tokenExt c3 s3).toOption
  pure [ingestSets s1, ingestSets s2, ingestSets s3, ingestSets s4]

/-- The character ids of the registry, client by client. -/
def whoIsWho (s : State) : List (String × Option String) :=
  s.clients.map (fun c => (c.id, c.character.map (fun ch => ch.ID)))

/-- A code is requested for amy's address, client c1 joins with it, then client
c2 joins with the same address and code: the login requests after the first
step, and who is authenticated after the second and the third. -/
def codeReuseRun :
    Option (List String × List (String × Option String) × List (String × Option String)) := do
  let s1 ← (handleEmailCode sampleExt "amy@x.org" Mentor loginState).toOption
  let s2 ← (handleJoin sampleExt (joinWith "" "" "" "amy@x.org" 123456) (guestClient "c1") s1).toOption
  let s3 ← (handleJoin sampleExt (joinWith "" "" "" "amy@x.org" 123456) (guestClient "c2") s2).toOption
  pure (s1.db.SMembers "login_requests", whoIsWho s2, whoIsWho s3)

/-- The registry and the published packets a run ends with. -/
def outcome (r : Except Fault State) : Option (List Client × List Packet) :=
  r.toOption.map (fun s => (s.clients, s.published))

/-- The credentials a join packet carries: name, quillToken, token, email and code. -/
def credentials : Packet → List String
  | .Join p => [p.Name, p.QuillToken, p.Token, p.Email, Itoa p.Code]
  | _ => []

/-- A listing whose only line has four fields, the fourth without an "=". -/
def listingWithoutEquals : String :=
  "id=3 addr=10.0.0.1:5000 fd=8 ingest\n"

/-- A listing with an empty line, a line of three fields and an ingest
connection whose id is no number. -/
def listingOddLines : String :=
  "\nid=2 addr=10.0.0.9:4000 fd=7\nid=x3 addr=10.0.0.1:5000 fd=8 name=ingest\n"

/-- Alice sends two friend requests whose recipient is her own character id and
whose sender id is another name: her requests set and her send queue after the
first, her friends set after the second. -/
def selfRequestRun : Option (List String × List Packet × List String) := do
  let s1 ← (handleFriendRequest "alice" "mallory" (sampleClient "c1" "alice" "lobby")
    teleportState).toOption
  let c1 ← s1.clients.find? (fun c => c.id = "c1")
  let s2 ← (handleFriendRequest "alice" "mallory" c1 s1).toOption
  pure (s1.db.SMembers "character:alice:requests", c1.send, s2.db.SMembers "character:alice:friends")

/-- The two guests with the pair (amy's address, 123456) recorded in login_requests. -/
def codeIssuedState : State :=
  { loginState with db := loginState.db.SAdd "login_requests" "amy@x.org,123456" }

/-- The lobby of scenario 3 with four events on the programme. -/
def eventState : State :=
  { teleportState with
    db := (((teleportState.db.SAdd "events" "talk-1").SAdd "events" "talk-2").SAdd
      "events" "talk-3").SAdd "events" "talk-4" }

/-- Scenario 5 of the spec: alice in the lobby with bob her friend and carol her
teammate both connected, her room stored with her record. -/
def friendsState : State :=
  { teleportState with
    db := ((teleportState.db.SAdd "character:alice:friends" "bob").SAdd
      "character:alice:teammates" "carol").Set "character:alice:active" "true" }

/-! ## Theorems -/

/-- Claim C1, at a failing input: two character ids in UUID form with the same
FNV-1a hash get different conversation keys in the two directions, in the Message
case and in the GetMessages case. -/
theorem conversationKey_collision :
    fnv32a (bytes "0b078a9f-8417-4035-9ace-97a4d476118c")
        = fnv32a (bytes "8b56f373-658f-4b27-abe1-e913a409cbbb")
      ∧ messageConversationKey "0b078a9f-8417-4035-9ace-97a4d476118c"
            "8b56f373-658f-4b27-abe1-e913a409cbbb"
          ≠ messageConversationKey "8b56f373-658f-4b27-abe1-e913a409cbbb"
            "0b078a9f-8417-4035-9ace-97a4d476118c"
      ∧ getMessagesConversationKey "0b078a9f-8417-4035-9ace-97a4d476118c"
            "8b56f373-658f-4b27-abe1-e913a409cbbb"
          ≠ getMessagesConversationKey "8b56f373-658f-4b27-abe1-e913a409cbbb"
            "0b078a9f-8417-4035-9ace-97a4d476118c" := by
  decide

/-- The keys of the two directions agree whenever the two hashes differ. -/
theorem messageConversationKey_symm_of_hash_ne (a b : String)
    (h : fnv32a (bytes a) ≠ fnv32a (bytes b)) :
    messageConversationKey a b = messageConversationKey b a := by
  unfold messageConversationKey
  rcases Nat.lt_or_gt_of_ne h with hlt | hgt
  · simp [hlt, Nat.lt_asymm hlt]
  · simp [hgt, Nat.lt_asymm hgt]

/-! ### Store and registry lemmas -/

theorem getField_setField_same (f : String) (v : Value) (fs : Fields) :
    getField f (setField f v fs) = some v := by
  induction fs with
  | nil => simp [setField, getField]
  | cons a r ih =>
    obtain ⟨g, w⟩ := a
    by_cases h : g = f
    · simp [setField, getField, h]
    · simp [setField, getField, h, ih]

theorem getField_setField_ne (f g : String) (v : Value) (fs : Fields) (h : g ≠ f) :
    getField g (setField f v fs) = getField g fs := by
  induction fs with
  | nil => simp [setField, getField, Ne.symm h]
  | cons a r ih =>
    obtain ⟨k, w⟩ := a
    by_cases hk : k = f
    · subst hk
      simp [setField, getField, Ne.symm h]
    · by_cases hg : k = g
      · subst hg
        simp [setField, getField, hk]
      · simp [setField, getField, hk, hg, ih]

theorem hashes_HSet_same (db : Store) (key field : String) (v : Value) :
    (db.HSet key field v).hashes key = setField field v (db.hashes key) := by
  simp [Store.HSet]

theorem hashes_HSet_ne (db : Store) (key key2 field : String) (v : Value) (h : key2 ≠ key) :
    (db.HSet key field v).hashes key2 = db.hashes key2 := by
  simp [Store.HSet, Function.update_noteq h]

/-- The identity and the character of a client: what a fan-out leaves as it is. -/
theorem sendToClient_who (room : String) (msg : Packet) (c : Client) :
    (sendToClient room msg c).id = c.id ∧ (sendToClient room msg c).character = c.character := by
  unfold sendToClient
  cases hc : c.character with
  | none => simp [hc]
  | some ch =>
    simp only
    split_ifs <;> simp [hc]

theorem find?_SendBytes (room : String) (msg : Packet) (cs : List Client) (x : String) :
    (SendBytes room msg cs).find? (fun c => c.id = x)
      = (cs.find? (fun c => c.id = x)).map (sendToClient room msg) := by
  induction cs with
  | nil => simp [SendBytes]
  | cons a r ih =>
    simp only [SendBytes, List.map_cons, List.find?_cons] at ih ⊢
    rw [(sendToClient_who room msg a).1]
    by_cases h : a.id = x
    · simp [h]
    · simp [h, ih]

/-- One ElementToggle by an authenticated client: the state it leaves. -/
theorem handleElementToggle_eq (ID : String) (c : Client) (s : State) (ch : Character)
    (hch : c.character = some ch) :
    handleElementToggle ID c s = .ok
      { clients := SendBytes ch.Room
          (.ElementUpdate ch.Room ID
            { storedElement ID s with
              ID := ID
              State := if (storedElement ID s).State < ((Count (storedElement ID s).Path ',' : Nat) : Int) + 1 - 1
                then (storedElement ID s).State + 1 else 0 }) s.clients
        db := s.db.HSet ("element:" ++ ID) "state"
          (.int (if (storedElement ID s).State < ((Count (storedElement ID s).Path ',' : Nat) : Int) + 1 - 1
            then (storedElement ID s).State + 1 else 0))
        published := s.published ++
          [.ElementUpdate ch.Room ID
            { storedElement ID s with
              ID := ID
              State := if (storedElement ID s).State < ((Count (storedElement ID s).Path ',' : Nat) : Int) + 1 - 1
                then (storedElement ID s).State + 1 else 0 }] } := by
  unfold handleElementToggle storedElement
  simp only [hch, Send, ProcessRedisMessage]
  split_ifs <;> rfl

theorem storedElement_HSet_state (ID : String) (s : State) (v : Int) (cs : List Client)
    (pub : List Packet) :
    storedElement ID { clients := cs, db := s.db.HSet ("element:" ++ ID) "state" (.int v), published := pub }
      = { storedElement ID s with State := v } := by
  have hs : getField "state" (setField "state" (.int v) (s.db.hashes ("element:" ++ ID))) = some (.int v) :=
    getField_setField_same _ _ _
  have hne : ∀ g : String, g ≠ "state" →
      getField g (setField "state" (.int v) (s.db.hashes ("element:" ++ ID)))
        = getField g (s.db.hashes ("element:" ++ ID)) :=
    fun g hg => getField_setField_ne _ _ _ _ hg
  simp only [storedElement, BindElement, Store.HGetAll, hashes_HSet_same, fieldString, fieldInt,
    fieldBool, hs, hne "path" (by decide), hne "action" (by decide),
    hne "changingImagePath" (by decide), hne "changingPaths" (by decide),
    hne "changingInterval" (by decide)]

/-- The stored state after `k` toggles of an element whose state is in range. -/
theorem toggleTimes_state (ID sender : String) (k : Nat) :
    ∀ (s : State) (c : Client) (ch : Character),
      s.clients.find? (fun c => c.id = sender) = some c → c.character = some ch →
      0 ≤ (storedElement ID s).State →
      (storedElement ID s).State < ((Count (storedElement ID s).Path ',' : Nat) : Int) + 1 →
      ∃ s1, toggleTimes ID sender k s = .ok s1 ∧
        storedElement ID s1 = { storedElement ID s with
          State := ((storedElement ID s).State + k) % (((Count (storedElement ID s).Path ',' : Nat) : Int) + 1) } := by
  induction k with
  | zero =>
    intro s c ch _ _ h0 hn
    refine ⟨s, rfl, ?_⟩
    simp [Int.emod_eq_of_lt h0 hn]
  | succ k ih =>
    intro s c ch hfind hch h0 hn
    simp only [toggleTimes, hfind, handleElementToggle_eq ID c s ch hch]
    set st := (storedElement ID s).State with hst
    set n : Int := ((Count (storedElement ID s).Path ',' : Nat) : Int) + 1 with hnd
    have hfind1 : (SendBytes ch.Room
          (.ElementUpdate ch.Room ID { storedElement ID s with ID := ID, State := if st < n - 1 then st + 1 else 0 })
          s.clients).find? (fun c => c.id = sender)
        = some (sendToClient ch.Room
          (.ElementUpdate ch.Room ID { storedElement ID s with ID := ID, State := if st < n - 1 then st + 1 else 0 }) c) := by
      rw [find?_SendBytes, hfind]; rfl
    have hch1 := (sendToClient_who ch.Room
          (.ElementUpdate ch.Room ID { storedElement ID s with ID := ID, State := if st < n - 1 then st + 1 else 0 }) c).2
    rw [hch] at hch1
    have hstored := storedElement_HSet_state ID s (if st < n - 1 then st + 1 else 0)
      (SendBytes ch.Room
          (.ElementUpdate ch.Room ID { storedElement ID s with ID := ID, State := if st < n - 1 then st + 1 else 0 })
          s.clients)
      (s.published ++ [.ElementUpdate ch.Room ID { storedElement ID s with ID := ID, State := if st < n - 1 then st + 1 else 0 }])
    obtain ⟨s1, hrun, hres⟩ := ih _ _ ch hfind1 hch1
      (by rw [hstored]; simp only; split_ifs <;> omega)
      (by rw [hstored]; simp only; rw [← hnd]; split_ifs <;> omega)
    refine ⟨s1, hrun, ?_⟩
    rw [hres, hstored]
    simp only [← hnd]
    congr 1
    by_cases hlt : st < n - 1
    · simp only [hlt, if_true]
      congr 1
      push_cast
      ring
    · simp only [hlt, if_false]
      have : st = n - 1 := by omega
      rw [this]
      have e : n - 1 + ((k + 1 : Nat) : Int) = (k : Int) + n := by push_cast; ring
      rw [e, Int.add_emod_self, zero_add]

/-! ### ElementToggle -/

/-- Claim C2, amended: for an element whose path has n comma-separated entries
and whose stored state s satisfies 0 ≤ s < n, n ElementToggles in succession by
an authenticated client all complete and leave the stored state equal to s (and
the path as it was). -/
theorem elementToggle_cycle (ID sender : String) (s : State) (c : Client) (ch : Character)
    (hfind : s.clients.find? (fun c => c.id = sender) = some c) (hch : c.character = some ch)
    (h0 : 0 ≤ (storedElement ID s).State)
    (hn : (storedElement ID s).State < ((Count (storedElement ID s).Path ',' : Nat) : Int) + 1) :
    ∃ s1, toggleTimes ID sender (Count (storedElement ID s).Path ',' + 1) s = .ok s1 ∧
      (storedElement ID s1).State = (storedElement ID s).State ∧
      (storedElement ID s1).Path = (storedElement ID s).Path := by
  obtain ⟨s1, hrun, hres⟩ :=
    toggleTimes_state ID sender (Count (storedElement ID s).Path ',' + 1) s c ch hfind hch h0 hn
  refine ⟨s1, hrun, ?_, ?_⟩
  · rw [hres]
    simp only
    push_cast
    rw [Int.add_emod_self]
    exact Int.emod_eq_of_lt h0 hn
  · rw [hres]

/-- Claim C2, witness: the two-state element of the lobby with stored state 1. -/
theorem elementToggle_cycle_witness :
    ∃ s1, toggleTimes "e1" "c1" (Count (storedElement "e1" toggleStateInRange).Path ',' + 1)
        toggleStateInRange = .ok s1 ∧
      (storedElement "e1" s1).State = (storedElement "e1" toggleStateInRange).State ∧
      (storedElement "e1" s1).Path = (storedElement "e1" toggleStateInRange).Path :=
  elementToggle_cycle "e1" "c1" toggleStateInRange (sampleClient "c1" "alice" "lobby")
    (sampleCharacter "alice" "lobby") (by decide) (by decide) (by decide) (by decide)

/-- Claim C2, counterexample: the path has two entries and the stored state is 2;
two toggles leave the stored state 1, not 2. -/
theorem elementToggle_cycle_out_of_range :
    Count (storedElement "e1" toggleState).Path ',' + 1 = 2
      ∧ (storedElement "e1" toggleState).State = 2
      ∧ (toggleTimes "e1" "c1" 2 toggleState).toOption.map
          (fun s => (storedElement "e1" s).State) = some 1 := by
  decide

/-- Claim C3, amended: for an element whose path has n comma-separated entries
and whose stored state s satisfies 0 ≤ s < n, one ElementToggle by an
authenticated client writes (s + 1) mod n to the field "state" of element:<id>,
and the element_update packet it publishes and fans out to the sender's room
carries that state. -/
theorem elementToggle_writes_next_state (ID : String) (c : Client) (s : State) (ch : Character)
    (hch : c.character = some ch)
    (h0 : 0 ≤ (storedElement ID s).State)
    (hn : (storedElement ID s).State < ((Count (storedElement ID s).Path ',' : Nat) : Int) + 1) :
    ∃ s1 e, handleElementToggle ID c s = .ok s1 ∧
      s1.db.HGet ("element:" ++ ID) "state"
        = some (.int (((storedElement ID s).State + 1)
            % (((Count (storedElement ID s).Path ',' : Nat) : Int) + 1))) ∧
      e.State = ((storedElement ID s).State + 1)
            % (((Count (storedElement ID s).Path ',' : Nat) : Int) + 1) ∧
      e.ID = ID ∧ e.Path = (storedElement ID s).Path ∧
      s1.published = s.published ++ [.ElementUpdate ch.Room ID e] ∧
      s1.clients = SendBytes ch.Room (.ElementUpdate ch.Room ID e) s.clients := by
  have hmod : (if (storedElement ID s).State < ((Count (storedElement ID s).Path ',' : Nat) : Int) + 1 - 1
        then (storedElement ID s).State + 1 else 0)
      = ((storedElement ID s).State + 1) % (((Count (storedElement ID s).Path ',' : Nat) : Int) + 1) := by
    split_ifs with hlt
    · exact (Int.emod_eq_of_lt (by omega) (by omega)).symm
    · have : (storedElement ID s).State + 1 = ((Count (storedElement ID s).Path ',' : Nat) : Int) + 1 := by
        omega
      rw [this, Int.emod_self]
  rw [handleElementToggle_eq ID c s ch hch, hmod]
  refine ⟨_, { storedElement ID s with
      ID := ID
      State := ((storedElement ID s).State + 1)
        % (((Count (storedElement ID s).Path ',' : Nat) : Int) + 1) }, rfl, ?_, rfl, rfl, rfl, rfl, rfl⟩
  simp only [Store.HGet, hashes_HSet_same, getField_setField_same]

/-- Claim C3, witness: the two-state element of the lobby with stored state 1. -/
theorem elementToggle_writes_next_state_witness :
    ∃ s1 e, handleElementToggle "e1" (sampleClient "c1" "alice" "lobby") toggleStateInRange = .ok s1 ∧
      s1.db.HGet ("element:" ++ "e1") "state"
        = some (.int (((storedElement "e1" toggleStateInRange).State + 1)
            % (((Count (storedElement "e1" toggleStateInRange).Path ',' : Nat) : Int) + 1))) ∧
      e.State = ((storedElement "e1" toggleStateInRange).State + 1)
            % (((Count (storedElement "e1" toggleStateInRange).Path ',' : Nat) : Int) + 1) ∧
      e.ID = "e1" ∧ e.Path = (storedElement "e1" toggleStateInRange).Path ∧
      s1.published = toggleStateInRange.published ++ [.ElementUpdate "lobby" "e1" e] ∧
      s1.clients = SendBytes "lobby" (.ElementUpdate "lobby" "e1" e) toggleStateInRange.clients :=
  elementToggle_writes_next_state "e1" (sampleClient "c1" "alice" "lobby") toggleStateInRange
    (sampleCharacter "alice" "lobby") rfl (by decide) (by decide)

/-- Claim C3, counterexample: the path has three entries and the stored state is
4; one toggle writes 0 and publishes 0, while (4 + 1) mod 3 is 2. -/
theorem elementToggle_resets_out_of_range :
    Count (storedElement "e7" toggleStateThree).Path ',' + 1 = 3
      ∧ (storedElement "e7" toggleStateThree).State = 4
      ∧ ((4 : Int) + 1) % 3 = 2
      ∧ (handleElementToggle "e7" (sampleClient "c1" "alice" "lobby") toggleStateThree).toOption.bind
          (fun s => s.db.HGet "element:e7" "state") = some (.int 0)
      ∧ (handleElementToggle "e7" (sampleClient "c1" "alice" "lobby") toggleStateThree).toOption.map
          (fun s => s.published)
          = some [.ElementUpdate "lobby" "e7"
              { ID := "e7", Path := "a.svg,b.svg,c.svg", State := 0, Action := 0,
                ChangingImagePath := false, ChangingPaths := "", ChangingInterval := 0 }] := by
  decide

/-! ### Teleport -/

theorem clampCoordinate_spec (c : ℚ) :
    (c ≤ 0 ∨ c ≥ 1 → clampCoordinate c = 1 / 2) ∧ (0 < c ∧ c < 1 → clampCoordinate c = c) ∧
      0 < clampCoordinate c ∧ clampCoordinate c < 1 := by
  unfold clampCoordinate
  refine ⟨fun h => by simp [h], fun h => ?_, ?_, ?_⟩
  · have : ¬ (c ≤ 0 ∨ c ≥ 1) := by
      rintro (h1 | h1)
      · exact absurd h.1 (not_lt.mpr h1)
      · exact absurd h.2 (not_lt.mpr h1)
    simp [this]
  · split_ifs with h
    · norm_num
    · push_neg at h
      exact h.1
  · split_ifs with h
    · norm_num
    · push_neg at h
      exact h.2

theorem ProcessRedisMessage_teleport (q : TeleportPacket) (cs : List Client) :
    ProcessRedisMessage (.Teleport q) cs = .ok
      (if q.Type_ = "teleport" ∨ q.Type_ = "teleport_home" then
        SendBytes q.To (.Join (NewJoinPacket q.Character))
          (SendBytes q.From (.Leave q.Character q.From) cs)
      else cs) := by
  simp only [ProcessRedisMessage]
  split_ifs <;> rfl

/-- The Teleport case by an authenticated client completes; the state it leaves,
in terms of the destination `dest`, the store `db1` after the first pipeline, the
published packet `q` and the registry `cs1` before the fan-out. -/
theorem handleTeleport_eq (ext : Ext) (p : TeleportPacket) (c : Client) (s : State)
    (ch : Character) (hch : c.character = some ch)
    (dest : String × Store) (hdest : dest = teleportDestination ext p ch s.db)
    (db1 : Store)
    (hdb1 : db1 = (dest.2.HSetMap ("character:" ++ ch.ID)
        [("room", .str dest.1), ("x", .num (clampCoordinate p.X)),
         ("y", .num (clampCoordinate p.Y))]).SRem ("room:" ++ ch.Room ++ ":characters") ch.ID)
    (q : TeleportPacket)
    (hq : q = { Type_ := p.Type_, From := ch.Room, To := dest.1, X := clampCoordinate p.X,
                Y := clampCoordinate p.Y,
                Character := some { BindCharacter (db1.HGetAll ("character:" ++ ch.ID)) with ID := ch.ID } })
    (cs1 : List Client)
    (hcs1 : cs1 = (s.sendDirect c.id (.Init (NewInitPacket ch.ID dest.1 false))).clients.map
        (fun c1 => if c1.id = c.id then { c1 with character := some { ch with Room := dest.1 } } else c1)) :
    handleTeleport ext p c s = .ok
      { clients :=
          if q.Type_ = "teleport" ∨ q.Type_ = "teleport_home" then
            SendBytes q.To (.Join (NewJoinPacket q.Character))
              (SendBytes q.From (.Leave q.Character q.From) cs1)
          else cs1
        db := db1.SAdd ("room:" ++ dest.1 ++ ":characters") ch.ID
        published := s.published ++ [.Teleport q] } := by
  subst hdest hdb1 hq hcs1
  unfold handleTeleport
  simp only [hch, Send, ProcessRedisMessage_teleport]
  rfl

theorem hashes_SRem (db : Store) (key member : String) : (db.SRem key member).hashes = db.hashes := rfl

theorem hashes_SAdd (db : Store) (key member : String) : (db.SAdd key member).hashes = db.hashes := by
  unfold Store.SAdd
  split_ifs <;> rfl

theorem hashes_HSetMap_three (db : Store) (key f1 f2 f3 : String) (v1 v2 v3 : Value) :
    (db.HSetMap key [(f1, v1), (f2, v2), (f3, v3)]).hashes key
      = setField f3 v3 (setField f2 v2 (setField f1 v1 (db.hashes key))) := by
  simp [Store.HSetMap, hashes_HSet_same]

/-- Claim C4: for every teleport packet from an authenticated client, the handler
completes, the coordinates written to the store fields x and y of the character
and carried by the published teleport packet (and by the character in it) are
the clamped ones, where a coordinate c with c ≤ 0 or c ≥ 1 clamps to 1/2 and one
with 0 < c < 1 to itself, so that the result lies strictly between 0 and 1. -/
theorem teleport_clamps_coordinates (ext : Ext) (p : TeleportPacket) (c : Client) (s : State)
    (ch : Character) (hch : c.character = some ch) :
    ∃ s1 q bound, handleTeleport ext p c s = .ok s1 ∧
      s1.published = s.published ++ [.Teleport q] ∧ q.Character = some bound ∧
      q.X = clampCoordinate p.X ∧ q.Y = clampCoordinate p.Y ∧
      bound.X = clampCoordinate p.X ∧ bound.Y = clampCoordinate p.Y ∧
      s1.db.HGet ("character:" ++ ch.ID) "x" = some (.num (clampCoordinate p.X)) ∧
      s1.db.HGet ("character:" ++ ch.ID) "y" = some (.num (clampCoordinate p.Y)) ∧
      ∀ v ∈ [p.X, p.Y],
        (v ≤ 0 ∨ v ≥ 1 → clampCoordinate v = 1 / 2) ∧ (0 < v ∧ v < 1 → clampCoordinate v = v) ∧
          0 < clampCoordinate v ∧ clampCoordinate v < 1 := by
  have hx : ∀ fs : Fields, getField "x"
      (setField "y" (.num (clampCoordinate p.Y)) (setField "x" (.num (clampCoordinate p.X)) fs))
        = some (.num (clampCoordinate p.X)) := fun fs => by
    rw [getField_setField_ne _ _ _ _ (by decide), getField_setField_same]
  have hy : ∀ fs : Fields, getField "y"
      (setField "y" (.num (clampCoordinate p.Y)) fs) = some (.num (clampCoordinate p.Y)) :=
    fun fs => getField_setField_same _ _ _
  refine ⟨_, _, _, handleTeleport_eq ext p c s ch hch _ rfl _ rfl _ rfl _ rfl, rfl, rfl, rfl, rfl,
    ?_, ?_, ?_, ?_, fun v _ => clampCoordinate_spec v⟩
  · simp only [Store.HGetAll, hashes_SRem, hashes_HSetMap_three, BindCharacter, fieldNum, hx]
  · simp only [Store.HGetAll, hashes_SRem, hashes_HSetMap_three, BindCharacter, fieldNum, hy]
  · simp only [Store.HGet, hashes_SAdd, hashes_SRem, hashes_HSetMap_three, hx]
  · simp only [Store.HGet, hashes_SAdd, hashes_SRem, hashes_HSetMap_three, hy]

/-- Claim C4, witness: scenario 3, alice teleports to the expo with x = 2 and
y = -1; both stored coordinates are 1/2. -/
theorem teleport_clamps_coordinates_witness :
    (sampleClient "c1" "alice" "lobby").character = some (sampleCharacter "alice" "lobby") ∧
    ∃ s1, handleTeleport sampleExt teleportToExpo (sampleClient "c1" "alice" "lobby") teleportState
        = .ok s1 ∧
      s1.db.HGet "character:alice" "x" = some (.num (1 / 2)) ∧
      s1.db.HGet "character:alice" "y" = some (.num (1 / 2)) := by
  refine ⟨rfl, ?_⟩
  obtain ⟨s1, q, bound, hrun, _, _, _, _, _, _, hx, hy, _⟩ :=
    teleport_clamps_coordinates sampleExt teleportToExpo (sampleClient "c1" "alice" "lobby")
      teleportState (sampleCharacter "alice" "lobby") rfl
  refine ⟨s1, hrun, ?_, ?_⟩
  · rw [show "character:alice" = "character:" ++ (sampleCharacter "alice" "lobby").ID from by decide, hx]
    simp [clampCoordinate, teleportToExpo]
  · rw [show "character:alice" = "character:" ++ (sampleCharacter "alice" "lobby").ID from by decide, hy]
    simp [clampCoordinate, teleportToExpo]

/-! ### Sponsor queues -/

theorem lists_HSet (db : Store) (key field : String) (v : Value) :
    (db.HSet key field v).lists = db.lists := rfl

theorem lists_HSetMap (key : String) (fields : Fields) :
    ∀ db : Store, (db.HSetMap key fields).lists = db.lists := by
  induction fields with
  | nil => intro db; rfl
  | cons a r ih =>
    intro db
    simp only [Store.HSetMap, List.foldl_cons] at ih ⊢
    rw [ih, lists_HSet]

theorem sets_HSet (db : Store) (key field : String) (v : Value) :
    (db.HSet key field v).sets = db.sets := rfl

theorem sets_HSetMap (key : String) (fields : Fields) :
    ∀ db : Store, (db.HSetMap key fields).sets = db.sets := by
  induction fields with
  | nil => intro db; rfl
  | cons a r ih =>
    intro db
    simp only [Store.HSetMap, List.foldl_cons] at ih ⊢
    rw [ih, sets_HSet]

theorem sendSponsorQueueUpdate_db (sponsorID : String) (s : State) :
    (sendSponsorQueueUpdate sponsorID s).db = s.db := rfl

theorem sendSponsorQueueUpdate_published (sponsorID : String) (s : State) :
    (sendSponsorQueueUpdate sponsorID s).published = s.published := rfl

/-- Claim C5: for a sponsor queue in which the character id of an authenticated
client occurs at most once, QueueJoin completes and leaves the queue as it was
when the id was in it and with the id appended at the tail otherwise, so with
exactly one occurrence; a second QueueJoin by that character then returns the
state unchanged (store, registry and published packets). -/
theorem queueJoin_idempotent (ext : Ext) (SponsorID : String) (c : Client) (s : State)
    (ch : Character) (hch : c.character = some ch)
    (hcount : (s.db.LRangeAll ("sponsor:" ++ SponsorID ++ ":hackerqueue")).count ch.ID ≤ 1) :
    ∃ s1, handleQueueJoin ext SponsorID c s = .ok s1 ∧
      s1.db.LRangeAll ("sponsor:" ++ SponsorID ++ ":hackerqueue")
        = (if ch.ID ∈ s.db.LRangeAll ("sponsor:" ++ SponsorID ++ ":hackerqueue") then
            s.db.LRangeAll ("sponsor:" ++ SponsorID ++ ":hackerqueue")
          else s.db.LRangeAll ("sponsor:" ++ SponsorID ++ ":hackerqueue") ++ [ch.ID]) ∧
      (s1.db.LRangeAll ("sponsor:" ++ SponsorID ++ ":hackerqueue")).count ch.ID = 1 ∧
      ∀ c2 : Client, c2.character = some ch → handleQueueJoin ext SponsorID c2 s1 = .ok s1 := by
  have hany : ∀ l : List String, l.any (fun hackerID => decide (hackerID = ch.ID)) = decide (ch.ID ∈ l) := by
    intro l
    induction l with
    | nil => simp
    | cons a r ih => simp [List.any_cons, ih, eq_comm]
  by_cases hmem : ch.ID ∈ s.db.LRangeAll ("sponsor:" ++ SponsorID ++ ":hackerqueue")
  · have hjoin : ∀ c2 : Client, c2.character = some ch → handleQueueJoin ext SponsorID c2 s = .ok s := by
      intro c2 h2
      simp only [handleQueueJoin, h2, hany, hmem, decide_True, if_true]
    refine ⟨s, hjoin c hch, by simp [hmem], ?_, hjoin⟩
    have hpos : 0 < (s.db.LRangeAll ("sponsor:" ++ SponsorID ++ ":hackerqueue")).count ch.ID :=
      List.count_pos_iff.mpr hmem
    omega
  · have hq : (sendSponsorQueueUpdate SponsorID
          { s with db := (((s.db.RPush ("sponsor:" ++ SponsorID ++ ":hackerqueue") ch.ID).HSet
              ("character:" ++ ch.ID) "queueId" (.str SponsorID)).HSetMap
              ("subscriber:" ++ ch.ID) (ext.NewQueueSubscriber ch).fields) }).db.LRangeAll
          ("sponsor:" ++ SponsorID ++ ":hackerqueue")
        = s.db.LRangeAll ("sponsor:" ++ SponsorID ++ ":hackerqueue") ++ [ch.ID] := by
      simp only [sendSponsorQueueUpdate_db, Store.LRangeAll, lists_HSetMap, lists_HSet, Store.RPush,
        Function.update_same]
    refine ⟨sendSponsorQueueUpdate SponsorID
          { s with db := (((s.db.RPush ("sponsor:" ++ SponsorID ++ ":hackerqueue") ch.ID).HSet
              ("character:" ++ ch.ID) "queueId" (.str SponsorID)).HSetMap
              ("subscriber:" ++ ch.ID) (ext.NewQueueSubscriber ch).fields) }, ?_, ?_, ?_, ?_⟩
    · simp only [handleQueueJoin, hch, hany, hmem, decide_False]
      rfl
    · rw [hq]; simp [hmem]
    · rw [hq, List.count_append, List.count_eq_zero.mpr hmem]
      simp
    · intro c2 h2
      simp only [handleQueueJoin, h2, hany, hq, List.mem_append, List.mem_singleton, or_true,
        decide_True, if_true]

/-- Claim C5, witness: alice, absent from the queue of sponsor acme, joins it. -/
theorem queueJoin_idempotent_witness :
    (queueState.db.LRangeAll ("sponsor:" ++ "acme" ++ ":hackerqueue")).count "alice" ≤ 1 ∧
    ∃ s1, handleQueueJoin sampleExt "acme" (sampleClient "c1" "alice" "lobby") queueState = .ok s1 ∧
      s1.db.LRangeAll ("sponsor:" ++ "acme" ++ ":hackerqueue") = ["bob", "alice"] ∧
      handleQueueJoin sampleExt "acme" (sampleClient "c1" "alice" "lobby") s1 = .ok s1 := by
  refine ⟨by decide, ?_⟩
  obtain ⟨s1, hrun, hq, _, hagain⟩ :=
    queueJoin_idempotent sampleExt "acme" (sampleClient "c1" "alice" "lobby") queueState
      (sampleCharacter "alice" "lobby") rfl (by decide)
  refine ⟨s1, hrun, ?_, hagain _ rfl⟩
  rw [hq]
  decide

/-! ### Leader election -/

/-- On a listing whose lines all parse, the loop ends with the id of the first
listed ingest connection, or 0 when there is none. -/
theorem findLeader_eq_head (lines : List String) (hparse : ∀ line ∈ lines, lineParses line = true) :
    findLeader lines = .ok ((ingestIDs lines).headD 0) := by
  induction lines with
  | nil => rfl
  | cons client rest ih =>
    have hrest : ∀ line ∈ rest, lineParses line = true :=
      fun line hl => hparse line (List.mem_cons_of_mem _ hl)
    have hc := hparse client (List.mem_cons_self _ _)
    unfold findLeader ingestIDs
    by_cases hlen : (Split client ' ').length < 4
    · simp only [hlen, if_true]
      exact ih hrest
    · simp only [hlen, if_false]
      simp only [lineParses, hlen, decide_False, Bool.false_or, Bool.and_eq_true,
        decide_eq_true_eq] at hc
      obtain ⟨h3, h0⟩ := hc
      obtain ⟨name, hname⟩ : ∃ name, (Split ((Split client ' ').getD 3 "") '=')[1]? = some name :=
        ⟨_, List.getElem?_eq_getElem (by omega)⟩
      obtain ⟨idText, hid⟩ : ∃ idText, (Split ((Split client ' ').getD 0 "") '=')[1]? = some idText :=
        ⟨_, List.getElem?_eq_getElem (by omega)⟩
      have hgetD : (Split ((Split client ' ').getD 0 "") '=').getD 1 "" = idText := by
        rw [List.getD_eq_getElem?_getD, hid]
        rfl
      rw [hname]
      by_cases hn : name = ingestClientName
      · subst hn
        simp only [ne_eq, not_true_eq_false, if_false, if_true, hid, hgetD, List.headD_cons]
      · have hn2 : ¬ (some name = some ingestClientName) := fun h => hn (Option.some.inj h)
        simp only [ne_eq, hn, not_false_eq_true, if_true, hn2, if_false]
        exact ih hrest

/-- Claim C6, amended: for every connection listing whose lines parse and in
which the connections named "ingest" appear in ascending id order (oldest first,
so with distinct ids), the leader id computed in one tick is the id of the first
listed ingest connection, which is the lowest id among them, and exactly one of
the ingest connections has the leader id as its own. -/
theorem leader_is_lowest_when_oldest_first (clientsRes : String)
    (hparse : ∀ line ∈ Split clientsRes '\n', lineParses line = true)
    (hsorted : (ingestIDs (Split clientsRes '\n')).Pairwise (fun a b => a < b))
    (hne : ingestIDs (Split clientsRes '\n') ≠ []) :
    ∃ leaderID, findLeader (Split clientsRes '\n') = .ok leaderID ∧
      (ingestIDs (Split clientsRes '\n')).head? = some leaderID ∧
      (∀ id ∈ ingestIDs (Split clientsRes '\n'), leaderID ≤ id) ∧
      (∀ ingestID, leaderTick clientsRes ingestID = .ok (decide (leaderID = ingestID))) ∧
      (ingestIDs (Split clientsRes '\n')).countP (fun id => decide (leaderID = id)) = 1 := by
  have hfind := findLeader_eq_head (Split clientsRes '\n') hparse
  cases hids : ingestIDs (Split clientsRes '\n') with
  | nil => exact absurd hids hne
  | cons a r =>
    rw [hids] at hsorted hfind
    rw [List.pairwise_cons] at hsorted
    refine ⟨a, hfind, rfl, ?_, ?_, ?_⟩
    · intro id hid
      rcases List.mem_cons.mp hid with h | h
      · exact le_of_eq h.symm
      · exact le_of_lt (hsorted.1 id h)
    · intro ingestID
      simp only [leaderTick, hfind, List.headD_cons]
    · rw [List.countP_cons]
      have hzero : List.countP (fun id => decide (a = id)) r = 0 := by
        rw [List.countP_eq_zero]
        intro id hid
        have := hsorted.1 id hid
        simp only [decide_eq_true_eq]
        omega
      simp [hzero]

/-- Claim C6, witness: a listing with a connection that is no ingest and two
ingest connections, oldest first; the leader is 3. -/
theorem leader_is_lowest_when_oldest_first_witness :
    ingestIDs (Split listingOldestFirst '\n') = [3, 7] ∧
    ∃ leaderID, findLeader (Split listingOldestFirst '\n') = .ok leaderID ∧
      (ingestIDs (Split listingOldestFirst '\n')).head? = some leaderID ∧
      (∀ id ∈ ingestIDs (Split listingOldestFirst '\n'), leaderID ≤ id) ∧
      (∀ ingestID, leaderTick listingOldestFirst ingestID = .ok (decide (leaderID = ingestID))) ∧
      (ingestIDs (Split listingOldestFirst '\n')).countP (fun id => decide (leaderID = id)) = 1 :=
  ⟨by decide,
    leader_is_lowest_when_oldest_first listingOldestFirst (by decide) (by decide) (by decide)⟩

/-- Claim C6, counterexample: two ingest connections with the distinct ids 7 and
3, the one with id 7 listed first; the leader id computed is 7, not the lowest
id 3, and the instance with id 3 does not find itself leader. -/
theorem leader_not_lowest_newest_first :
    ingestIDs (Split listingNewestFirst '\n') = [7, 3]
      ∧ (findLeader (Split listingNewestFirst '\n')).toOption = some 7
      ∧ (leaderTick listingNewestFirst 3).toOption = some false
      ∧ (leaderTick listingNewestFirst 7).toOption = some true := by
  decide

/-! ### Fan-out -/

theorem splitChars_of_not_mem (sep : Char) (l : List Char) (h : sep ∉ l) :
    splitChars sep l = [l] := by
  induction l with
  | nil => rfl
  | cons a r ih =>
    have ha : a ≠ sep := fun e => h (e ▸ List.mem_cons_self _ _)
    have hr : sep ∉ r := fun e => h (List.mem_cons_of_mem _ e)
    simp [splitChars, ha, ih hr]

theorem Split_character_target (id : String) (h : ':' ∉ id.data) :
    (Split ("character:" ++ id) ':')[1]? = some id := by
  have hdata : ("character:" ++ id).data
      = 'c' :: 'h' :: 'a' :: 'r' :: 'a' :: 'c' :: 't' :: 'e' :: 'r' :: ':' :: id.data := by
    rw [String.data_append]
    rfl
  simp [Split, hdata, splitChars, splitChars_of_not_mem ':' id.data h]

theorem Contains_character_target (id : String) :
    Contains ("character:" ++ id) "character:" = true := by
  have hdata : ("character:" ++ id).data
      = 'c' :: 'h' :: 'a' :: 'r' :: 'a' :: 'c' :: 't' :: 'e' :: 'r' :: ':' :: id.data := by
    rw [String.data_append]
    rfl
  have hsub : ("character:" : String).data
      = ['c', 'h', 'a', 'r', 'a', 'c', 't', 'e', 'r', ':'] := rfl
  simp [Contains, hdata, hsub, List.isPrefixOf]

/-- Claim C7, amended: SendBytes handles every registered client once, in
registry order, and gives it the message once or not at all. A client without a
character gets nothing. With a character: target "*" matches it; a target other
than "*" that does not contain "character:" matches it exactly when its current
room is the target; a target "character:<id>" whose <id> has no colon matches a
client whose current room is not that same target string exactly when its
character id is <id>. -/
theorem sendBytes_matching (room : String) (msg : Packet) (clients : List Client) :
    SendBytes room msg clients = clients.map (sendToClient room msg) ∧
    (∀ c : Client, sendToClient room msg c = c ∨
      sendToClient room msg c = { c with send := c.send ++ [msg] }) ∧
    (∀ c : Client, c.character = none → sendToClient room msg c = c) ∧
    (∀ (c : Client) (ch : Character), c.character = some ch → room = "*" →
      sendToClient room msg c = { c with send := c.send ++ [msg] }) ∧
    (∀ (c : Client) (ch : Character), c.character = some ch → room ≠ "*" →
      Contains room "character:" = false →
      sendToClient room msg c = if ch.Room = room then { c with send := c.send ++ [msg] } else c) ∧
    (∀ (c : Client) (ch : Character) (id : String), c.character = some ch →
      room = "character:" ++ id → ':' ∉ id.data → ch.Room ≠ room →
      sendToClient room msg c = if ch.ID = id then { c with send := c.send ++ [msg] } else c) := by
  refine ⟨rfl, ?_, ?_, ?_, ?_, ?_⟩
  · intro c
    unfold sendToClient
    cases c.character with
    | none => exact Or.inl rfl
    | some ch =>
      simp only
      split_ifs
      · exact Or.inr rfl
      · exact Or.inr rfl
      · exact Or.inr rfl
      · exact Or.inl rfl
  · intro c hc
    simp [sendToClient, hc]
  · intro c ch hc hroom
    simp [sendToClient, hc, hroom]
  · intro c ch hc hstar hcontains
    simp [sendToClient, hc, hstar, hcontains]
  · intro c ch id hc hroom hcolon hother
    subst hroom
    have hstar : ("character:" ++ id : String) ≠ "*" := by
      intro e
      have := congrArg String.data e
      rw [String.data_append] at this
      exact absurd this (by simp [show ("character:" : String).data
        = ['c', 'h', 'a', 'r', 'a', 'c', 't', 'e', 'r', ':'] from rfl,
        show ("*" : String).data = ['*'] from rfl])
    simp only [sendToClient, hc, hstar, if_false, hother, Contains_character_target,
      Split_character_target id hcolon, Bool.true_and]
    by_cases hid : ch.ID = id
    · simp [hid]
    · have : ¬ (id = ch.ID) := fun e => hid e.symm
      simp [hid, this]

/-- Claim C7, witness: the target "character:bob" in a registry where zed's room
is "character:amy": only bob's client gets the packet. -/
theorem sendBytes_matching_witness :
    (SendBytes "character:bob" .Map eavesdropRegistry).map (fun c => (c.id, c.send))
      = [("c1", []), ("c2", []), ("c3", [.Map]), ("c4", [])] ∧
    sendToClient "character:bob" .Map (sampleClient "c3" "bob" "lobby")
      = { sampleClient "c3" "bob" "lobby" with send := [.Map] } := by
  refine ⟨by decide, ?_⟩
  have h := (sendBytes_matching "character:bob" .Map eavesdropRegistry).2.2.2.2.2
    (sampleClient "c3" "bob" "lobby") (sampleCharacter "bob" "lobby") "bob" rfl (by decide)
    (by decide) (by decide)
  rw [h]
  decide

/-- Claim C7, counterexample: the target "character:amy" reaches amy's client and
also the client of zed, whose character id is not amy but whose current room is
the string "character:amy". -/
theorem sendBytes_character_target_reaches_room :
    (SendBytes "character:amy" .Map eavesdropRegistry).map (fun c => (c.id, c.send))
      = [("c1", [.Map]), ("c2", [.Map]), ("c3", []), ("c4", [])] := by
  decide

/-! ### Queue snapshots -/

theorem queueLoop_eq (sponsorID : String) (cmds : List (String × Fields)) :
    ∀ (i : Nat) (subscribers : List QueueSubscriber) (cs : List Client),
      queueLoop sponsorID i cmds (subscribers, cs)
        = (subscribers ++ cmds.map (fun cmd => { ID := cmd.1, fields := cmd.2 }),
           performSends (positionSends sponsorID i (cmds.map Prod.fst)) cs) := by
  induction cmds with
  | nil => intro i subscribers cs; simp [queueLoop, performSends, positionSends]
  | cons cmd rest ih =>
    intro i subscribers cs
    obtain ⟨hackerID, res⟩ := cmd
    simp only [queueLoop, ih, List.map_cons, positionSends, performSends, List.foldl_cons,
      List.append_assoc, List.singleton_append, BindQueueSubscriber]

theorem positionSends_length (sponsorID : String) (queue : List String) :
    ∀ i, (positionSends sponsorID i queue).length = queue.length := by
  induction queue with
  | nil => intro i; rfl
  | cons a r ih => intro i; simp [positionSends, ih]

theorem positionSends_getElem? (sponsorID : String) (queue : List String) :
    ∀ (i k : Nat) (h : k < queue.length),
      (positionSends sponsorID i queue)[k]?
        = some ("character:" ++ queue[k], .QueueUpdateHacker sponsorID (((i + k : Nat) : Int) + 1) "") := by
  induction queue with
  | nil => intro i k h; exact absurd h (Nat.not_lt_zero _)
  | cons a r ih =>
    intro i k h
    cases k with
    | zero => simp [positionSends]
    | succ k =>
      have hk : k < r.length := by simpa using h
      simp only [positionSends, List.getElem?_cons_succ, List.getElem_cons_succ, ih (i + 1) k hk]
      congr 3
      omega

/-- The registry after `sendSponsorQueueUpdate`, as the sequence of its sends. -/
theorem sendSponsorQueueUpdate_clients (sponsorID : String) (s : State) :
    (sendSponsorQueueUpdate sponsorID s).clients
      = performSends
          (positionSends sponsorID 0 (s.db.LRangeAll ("sponsor:" ++ sponsorID ++ ":hackerqueue"))
            ++ (s.db.SMembers ("sponsor:" ++ sponsorID ++ ":subscribed")).map (fun sponsor =>
                ("character:" ++ sponsor,
                  Packet.QueueUpdateSponsor
                    ((s.db.LRangeAll ("sponsor:" ++ sponsorID ++ ":hackerqueue")).map (fun hackerID =>
                      { ID := hackerID, fields := s.db.HGetAll ("subscriber:" ++ hackerID) })))))
          s.clients := by
  simp only [sendSponsorQueueUpdate, queueLoop_eq, performSends, List.foldl_append, List.foldl_map,
    List.map_map, List.nil_append, Function.comp_def]
  simp

/-- Claim C8: for the hacker queue [h1, ..., hk] and the subscriber set P of a
sponsor, `sendSponsorQueueUpdate` leaves the store as it is and makes these
sends in order: to character:<hi> a QueueUpdateHacker packet with position i
(counted from 1), for each i, then to character:<p>, for each p in P, one
QueueUpdateSponsor packet whose k subscribers have the ids h1..hk in queue order.
And after QueueRemove of H1 from the queue [H1, H2] the queue is [H2], H2 is sent
position 1, and each sponsor packet lists exactly one subscriber, H2 (a sponsor
representative's removal also sends H1 the sponsor's URL). -/
theorem sponsorQueueUpdate_snapshot (sponsorID : String) (s : State) :
    (∃ subscribers : List QueueSubscriber,
      subscribers.map (fun sub => sub.ID) = s.db.LRangeAll ("sponsor:" ++ sponsorID ++ ":hackerqueue") ∧
      subscribers.length = (s.db.LRangeAll ("sponsor:" ++ sponsorID ++ ":hackerqueue")).length ∧
      (sendSponsorQueueUpdate sponsorID s).db = s.db ∧
      (sendSponsorQueueUpdate sponsorID s).clients
        = performSends
            (positionSends sponsorID 0 (s.db.LRangeAll ("sponsor:" ++ sponsorID ++ ":hackerqueue"))
              ++ (s.db.SMembers ("sponsor:" ++ sponsorID ++ ":subscribed")).map (fun sponsor =>
                  ("character:" ++ sponsor, Packet.QueueUpdateSponsor subscribers)))
            s.clients) ∧
    (positionSends sponsorID 0 (s.db.LRangeAll ("sponsor:" ++ sponsorID ++ ":hackerqueue"))).length
      = (s.db.LRangeAll ("sponsor:" ++ sponsorID ++ ":hackerqueue")).length ∧
    (∀ (k : Nat) (h : k < (s.db.LRangeAll ("sponsor:" ++ sponsorID ++ ":hackerqueue")).length),
      (positionSends sponsorID 0 (s.db.LRangeAll ("sponsor:" ++ sponsorID ++ ":hackerqueue")))[k]?
        = some ("character:" ++ (s.db.LRangeAll ("sponsor:" ++ sponsorID ++ ":hackerqueue"))[k],
            .QueueUpdateHacker sponsorID ((k : Int) + 1) "")) ∧
    (∀ (H1 H2 : String) (c : Client) (ch : Character),
      s.db.LRangeAll ("sponsor:" ++ sponsorID ++ ":hackerqueue") = [H1, H2] → H1 ≠ H2 →
      c.character = some ch →
      ∃ s1 sub, handleQueueRemove sponsorID H1 c s = .ok s1 ∧
        s1.db.LRangeAll ("sponsor:" ++ sponsorID ++ ":hackerqueue") = [H2] ∧ sub.ID = H2 ∧
        s1.clients = performSends
          ([("character:" ++ H2, Packet.QueueUpdateHacker sponsorID 1 "")]
            ++ (s.db.SMembers ("sponsor:" ++ sponsorID ++ ":subscribed")).map (fun sponsor =>
                ("character:" ++ sponsor, Packet.QueueUpdateSponsor [sub]))
            ++ (if ch.Role = SponsorRep then
                  [("character:" ++ H1, Packet.QueueUpdateHacker sponsorID 0 "https://google.com")]
                else []))
          s.clients) := by
  refine ⟨⟨_, ?_, ?_, rfl, sendSponsorQueueUpdate_clients sponsorID s⟩, positionSends_length _ _ _, ?_, ?_⟩
  · simp [Function.comp_def]
  · simp
  · intro k h
    have := positionSends_getElem? sponsorID _ 0 k h
    simpa using this
  · intro H1 H2 c ch hq hne hch
    have hne2 : H2 ≠ H1 := fun e => hne e.symm
    have hqueue : ((s.db.LRemAll ("sponsor:" ++ sponsorID ++ ":hackerqueue") H1).HSet
        ("character:" ++ H1) "queueId" (.str "")).LRangeAll ("sponsor:" ++ sponsorID ++ ":hackerqueue")
          = [H2] := by
      simp only [Store.LRangeAll] at hq
      simp [Store.LRangeAll, lists_HSet, Store.LRemAll, hq, hne2]
    have hclients := sendSponsorQueueUpdate_clients sponsorID
      { s with db := ((s.db.LRemAll ("sponsor:" ++ sponsorID ++ ":hackerqueue") H1).HSet
          ("character:" ++ H1) "queueId" (.str "")) }
    simp only [hqueue, positionSends, List.map_cons, List.map_nil] at hclients
    by_cases hrole : ch.Role = SponsorRep
    · refine ⟨(sendSponsorQueueUpdate sponsorID
          { s with db := ((s.db.LRemAll ("sponsor:" ++ sponsorID ++ ":hackerqueue") H1).HSet
            ("character:" ++ H1) "queueId" (.str "")) }).SendBytes ("character:" ++ H1)
            (.QueueUpdateHacker sponsorID 0 "https://google.com"),
        { ID := H2, fields := ((s.db.LRemAll ("sponsor:" ++ sponsorID ++ ":hackerqueue") H1).HSet
          ("character:" ++ H1) "queueId" (.str "")).HGetAll ("subscriber:" ++ H2) }, ?_, hqueue, rfl, ?_⟩
      · simp only [handleQueueRemove, hch, hrole, if_true]
      · simp only [State.SendBytes, hclients, performSends, List.foldl_append, List.foldl_cons,
          List.foldl_nil, hrole, if_true]
        rfl
    · refine ⟨sendSponsorQueueUpdate sponsorID
          { s with db := ((s.db.LRemAll ("sponsor:" ++ sponsorID ++ ":hackerqueue") H1).HSet
            ("character:" ++ H1) "queueId" (.str "")) },
        { ID := H2, fields := ((s.db.LRemAll ("sponsor:" ++ sponsorID ++ ":hackerqueue") H1).HSet
          ("character:" ++ H1) "queueId" (.str "")).HGetAll ("subscriber:" ++ H2) }, ?_, hqueue, rfl, ?_⟩
      · simp only [handleQueueRemove, hch, hrole, if_false]
      · simp only [hclients, performSends, List.foldl_append, List.foldl_cons,
          List.foldl_nil, hrole, if_false]
        rfl

/-- Claim C8, witness: scenario 4, the sponsor representative removes bob from
the queue [bob, alice]; the queue becomes [alice], alice is sent position 1 and
rep a list of one subscriber. -/
theorem sponsorQueueUpdate_snapshot_witness :
    queueOfTwo.db.LRangeAll ("sponsor:" ++ "acme" ++ ":hackerqueue") = ["bob", "alice"] ∧
    ∃ s1 sub, handleQueueRemove "acme" "bob" repClient queueOfTwo = .ok s1 ∧
      s1.db.LRangeAll ("sponsor:" ++ "acme" ++ ":hackerqueue") = ["alice"] ∧ sub.ID = "alice" ∧
      s1.clients = performSends
        [("character:alice", Packet.QueueUpdateHacker "acme" 1 ""),
         ("character:rep", Packet.QueueUpdateSponsor [sub]),
         ("character:bob", Packet.QueueUpdateHacker "acme" 0 "https://google.com")]
        queueOfTwo.clients := by
  refine ⟨by decide, ?_⟩
  obtain ⟨s1, sub, hrun, hq, hsub, hcs⟩ :=
    (sponsorQueueUpdate_snapshot "acme" queueOfTwo).2.2.2 "bob" "alice" repClient
      { sampleCharacter "rep" "sponsor:acme" with Role := SponsorRep, SponsorID := "acme" }
      (by decide) (by decide) rfl
  refine ⟨s1, sub, hrun, hq, hsub, ?_⟩
  rw [hcs]
  rfl

/-! ### Room membership -/

theorem roomKey_inj (a b : String)
    (h : "room:" ++ a ++ ":characters" = "room:" ++ b ++ ":characters") : a = b := by
  have hd := congrArg String.data h
  simp only [String.data_append] at hd
  exact String.ext (List.append_cancel_left (List.append_cancel_right hd))

theorem mem_sets_SAdd (db : Store) (key member key2 x : String) :
    x ∈ (db.SAdd key member).sets key2 ↔ x ∈ db.sets key2 ∨ (key2 = key ∧ x = member) := by
  unfold Store.SAdd
  split_ifs with hmem
  · constructor
    · exact Or.inl
    · rintro (h | ⟨rfl, rfl⟩)
      · exact h
      · exact hmem
  · by_cases hk : key2 = key
    · subst hk
      simp [Function.update_same]
    · simp [Function.update_noteq hk, hk]

theorem mem_sets_SRem (db : Store) (key member key2 x : String) :
    x ∈ (db.SRem key member).sets key2 ↔ x ∈ db.sets key2 ∧ ¬ (key2 = key ∧ x = member) := by
  unfold Store.SRem
  by_cases hk : key2 = key
  · subst hk
    simp [Function.update_same]
  · simp [Function.update_noteq hk, hk]

theorem sendToClient_inits (room : String) (msg : Packet) (hmsg : msg.isInit = false) (c : Client) :
    (sendToClient room msg c).send.filter Packet.isInit = c.send.filter Packet.isInit := by
  rcases (show sendToClient room msg c = c ∨
      sendToClient room msg c = { c with send := c.send ++ [msg] } from by
        unfold sendToClient
        cases c.character with
        | none => exact Or.inl rfl
        | some ch =>
          simp only
          split_ifs
          · exact Or.inr rfl
          · exact Or.inr rfl
          · exact Or.inr rfl
          · exact Or.inl rfl) with h | h
  · rw [h]
  · rw [h]
    simp [List.filter_append, hmsg]

theorem SendBytes_inits (room : String) (msg : Packet) (hmsg : msg.isInit = false)
    (cs : List Client) :
    (SendBytes room msg cs).map (fun c => (c.id, c.send.filter Packet.isInit))
      = cs.map (fun c => (c.id, c.send.filter Packet.isInit)) := by
  simp only [SendBytes, List.map_map]
  apply List.map_congr_left
  intro c _
  simp only [Function.comp, (sendToClient_who room msg c).1, sendToClient_inits room msg hmsg c]

theorem SendBytes_character (room : String) (msg : Packet) (cs : List Client) (c1 : Client)
    (h : c1 ∈ SendBytes room msg cs) :
    ∃ c0 ∈ cs, c0.id = c1.id ∧ c0.character = c1.character := by
  simp only [SendBytes, List.mem_map] at h
  obtain ⟨c0, hc0, rfl⟩ := h
  exact ⟨c0, hc0, (sendToClient_who room msg c0).1.symm, (sendToClient_who room msg c0).2.symm⟩

theorem teleportDestination_sets (ext : Ext) (p : TeleportPacket) (ch : Character) (db : Store)
    (hcreate : ∀ (id : String) (d : Store) (k : String),
      (ext.CreateRoom id d).sets ("room:" ++ k ++ ":characters") = d.sets ("room:" ++ k ++ ":characters"))
    (k : String) :
    (teleportDestination ext p ch db).2.sets ("room:" ++ k ++ ":characters")
      = db.sets ("room:" ++ k ++ ":characters") := by
  unfold teleportDestination
  by_cases h1 : p.Type_ = "teleport_home"
  · by_cases h2 : ch.SponsorID ≠ ""
    · simp [h1, h2]
    · by_cases h3 : db.SIsMember "rooms" ("home:" ++ ch.ID) = true
      · simp [h1, h2, h3]
      · simp [h1, h2, h3, hcreate]
  · simp [h1]

/-- Claim C9: for every authenticated client whose character c has the current
room A, the Teleport case completes and, B being the destination it resolves,
leaves the store's room field of c equal to B, c a member of room:B:characters
and, when A ≠ B, no member of room:A:characters, and the in-memory character's
room equal to B; the only init packet any send queue gains is the one for B on
the mover's own queue. When moreover c was a member of room:A:characters only
(and creating a home room adds nobody to a room), c ends a member of
room:R:characters exactly for R = B. -/
theorem teleport_moves_membership (ext : Ext) (p : TeleportPacket) (c : Client) (s : State)
    (ch : Character) (hch : c.character = some ch) :
    ∃ s1, handleTeleport ext p c s = .ok s1 ∧
      (p.Type_ ≠ "teleport_home" → (teleportDestination ext p ch s.db).1 = p.To) ∧
      s1.db.HGet ("character:" ++ ch.ID) "room"
        = some (.str (teleportDestination ext p ch s.db).1) ∧
      ch.ID ∈ s1.db.SMembers ("room:" ++ (teleportDestination ext p ch s.db).1 ++ ":characters") ∧
      (ch.Room ≠ (teleportDestination ext p ch s.db).1 →
        ch.ID ∉ s1.db.SMembers ("room:" ++ ch.Room ++ ":characters")) ∧
      (∀ c1 ∈ s1.clients, c1.id = c.id →
        c1.character = some { ch with Room := (teleportDestination ext p ch s.db).1 }) ∧
      s1.clients.map (fun c1 => (c1.id, c1.send.filter Packet.isInit))
        = s.clients.map (fun c1 => (c1.id, c1.send.filter Packet.isInit ++
            if c1.id = c.id then
              [Packet.Init (NewInitPacket ch.ID (teleportDestination ext p ch s.db).1 false)]
            else [])) ∧
      ((∀ (id : String) (d : Store) (k : String),
          (ext.CreateRoom id d).sets ("room:" ++ k ++ ":characters")
            = d.sets ("room:" ++ k ++ ":characters")) →
        (∀ R : String, ch.ID ∈ s.db.SMembers ("room:" ++ R ++ ":characters") → R = ch.Room) →
        ∀ R : String, ch.ID ∈ s1.db.SMembers ("room:" ++ R ++ ":characters")
          ↔ R = (teleportDestination ext p ch s.db).1) := by
  refine ⟨_, handleTeleport_eq ext p c s ch hch _ rfl _ rfl _ rfl _ rfl, ?_, ?_, ?_, ?_, ?_, ?_, ?_⟩
  · intro hty
    simp [teleportDestination, hty]
  · simp only [Store.HGet, hashes_SAdd, hashes_SRem, hashes_HSetMap_three]
    rw [getField_setField_ne _ _ _ _ (by decide), getField_setField_ne _ _ _ _ (by decide),
      getField_setField_same]
  · exact (mem_sets_SAdd _ _ _ _ _).mpr (Or.inr ⟨rfl, rfl⟩)
  · intro hAB hmem
    rcases (mem_sets_SAdd _ _ _ _ _).mp hmem with h | ⟨hk, _⟩
    · exact ((mem_sets_SRem _ _ _ _ _).mp h).2 ⟨rfl, rfl⟩
    · exact hAB (roomKey_inj _ _ hk)
  · intro c1 hc1 hid
    have hbase : ∀ c0 ∈ (s.sendDirect c.id
          (.Init (NewInitPacket ch.ID (teleportDestination ext p ch s.db).1 false))).clients.map
          (fun c1 => if c1.id = c.id then
            { c1 with character := some { ch with Room := (teleportDestination ext p ch s.db).1 } }
            else c1),
        c0.id = c.id →
          c0.character = some { ch with Room := (teleportDestination ext p ch s.db).1 } := by
      intro c0 hc0 hid0
      simp only [State.sendDirect, List.map_map, List.mem_map, Function.comp] at hc0
      obtain ⟨c00, _, rfl⟩ := hc0
      by_cases h00 : c00.id = c.id
      · simp [h00]
      · simp [h00] at hid0
    simp only at hc1
    split_ifs at hc1
    · obtain ⟨c0, hc0, hid0, hch0⟩ := SendBytes_character _ _ _ _ hc1
      obtain ⟨c00, hc00, hid00, hch00⟩ := SendBytes_character _ _ _ _ hc0
      rw [← hch0, ← hch00]
      exact hbase c00 hc00 (by rw [hid00, hid0, hid])
    · exact hbase c1 hc1 hid
  · have hcs1 : ((s.sendDirect c.id
          (.Init (NewInitPacket ch.ID (teleportDestination ext p ch s.db).1 false))).clients.map
          (fun c1 => if c1.id = c.id then
            { c1 with character := some { ch with Room := (teleportDestination ext p ch s.db).1 } }
            else c1)).map (fun c1 => (c1.id, c1.send.filter Packet.isInit))
        = s.clients.map (fun c1 => (c1.id, c1.send.filter Packet.isInit ++
            if c1.id = c.id then
              [Packet.Init (NewInitPacket ch.ID (teleportDestination ext p ch s.db).1 false)]
            else [])) := by
      simp only [State.sendDirect, List.map_map]
      apply List.map_congr_left
      intro c0 _
      by_cases h0 : c0.id = c.id
      · simp [Function.comp, h0, List.filter_append, Packet.isInit]
      · simp [Function.comp, h0]
    simp only
    split_ifs
    · rw [SendBytes_inits _ (.Join _) rfl, SendBytes_inits _ (.Leave _ _) rfl, hcs1]
    · exact hcs1
  · intro hcreate honly R
    constructor
    · intro hmem
      rcases (mem_sets_SAdd _ _ _ _ _).mp hmem with h | ⟨hk, _⟩
      · obtain ⟨h1, hno⟩ := (mem_sets_SRem _ _ _ _ _).mp h
        rw [sets_HSetMap, teleportDestination_sets ext p ch s.db hcreate] at h1
        have hR := honly R h1
        subst hR
        exact absurd ⟨rfl, rfl⟩ hno
      · exact roomKey_inj _ _ hk
    · intro hR
      subst hR
      exact (mem_sets_SAdd _ _ _ _ _).mpr (Or.inr ⟨rfl, rfl⟩)

/-- Claim C9, witness: scenario 3, alice (in the lobby, a member of the lobby's
set only) teleports to the expo. -/
theorem teleport_moves_membership_witness :
    ∃ s1, handleTeleport sampleExt teleportToExpo (sampleClient "c1" "alice" "lobby") teleportState
        = .ok s1 ∧
      s1.db.HGet "character:alice" "room" = some (.str "expo") ∧
      "alice" ∈ s1.db.SMembers "room:expo:characters" ∧
      "alice" ∉ s1.db.SMembers "room:lobby:characters" ∧
      (∀ R : String, "alice" ∈ s1.db.SMembers ("room:" ++ R ++ ":characters") ↔ R = "expo") ∧
      s1.clients.map (fun c1 => (c1.id, c1.send.filter Packet.isInit))
        = [("c1", [Packet.Init (NewInitPacket "alice" "expo" false)]), ("c2", []), ("c3", [])] := by
  obtain ⟨s1, hrun, _, hroom, hin, hout, _, hinit, hinv⟩ :=
    teleport_moves_membership sampleExt teleportToExpo (sampleClient "c1" "alice" "lobby")
      teleportState (sampleCharacter "alice" "lobby") rfl
  have hdest : (teleportDestination sampleExt teleportToExpo (sampleCharacter "alice" "lobby")
      teleportState.db).1 = "expo" := by decide
  rw [hdest] at hroom hin hout hinit hinv
  refine ⟨s1, hrun, hroom, hin, hout (by decide), ?_, ?_⟩
  · apply hinv
    · intro id d k
      have hk : ("room:" ++ k ++ ":characters" : String) ≠ "rooms" := by
        intro e
        have hd := congrArg String.data e
        simp only [String.data_append] at hd
        exact absurd hd (by
          simp [show ("room:" : String).data = ['r', 'o', 'o', 'm', ':'] from rfl,
            show ("rooms" : String).data = ['r', 'o', 'o', 'm', 's'] from rfl])
      show (d.SAdd "rooms" id).sets _ = _
      unfold Store.SAdd
      split_ifs
      · rfl
      · simp [Function.update_noteq hk]
    · intro R hR
      simp only [teleportState, Store.SMembers, sets_HSetMap, mem_sets_SAdd, emptyStore,
        List.not_mem_nil, false_or] at hR
      rcases hR with (⟨hk, _⟩ | ⟨_, h⟩) | ⟨_, h⟩
      · exact roomKey_inj R "lobby" hk
      · exact absurd h (by decide)
      · exact absurd h (by decide)
  · rw [hinit]
    decide

/-! ### The permission gate -/

/-- Claim C10: for every decoded packet p and registered sender (with character id
"" and role Guest when it has no character), if the permission check of p is
false then `processMessage` returns the state as it was: the store, the registry
with every send queue, and the packets published to the peers are unchanged. -/
theorem permission_denied_no_effect (ext : Ext) (m : SocketMessage) (s : State) (p : Packet)
    (sender : Client) (hp : m.msg = some p)
    (hs : s.clients.find? (fun c => c.id = m.sender) = some sender)
    (hperm : PermissionCheck ext p
        (match sender.character with
          | some character => character.ID
          | none => "")
        (match sender.character with
          | some character => character.Role
          | none => Guest) = false) :
    processMessage ext m s = .ok s := by
  unfold processMessage
  simp only [hp, hs, hperm, Bool.not_false, if_true]

/-- Claim C10, witness: a chat packet from a client without a character, in an
environment that grants permission to authenticated senders only. -/
theorem permission_denied_no_effect_witness :
    PermissionCheck sampleExt (.Chat "hi" "" "") "" Guest = false ∧
      processMessage sampleExt guestChat guestState = .ok guestState :=
  ⟨by decide,
    permission_denied_no_effect sampleExt guestChat guestState (.Chat "hi" "" "")
      { id := "c4", character := none, send := [] } rfl (by decide) (by decide)⟩

/-! ### Join, disconnect and the credentials -/

/-- Claim C11, at a failing input: on the instance "ingest-1" a character joins by
name (its id is then in ingest:ingest-1:characters), disconnects (id removed, the
ingest field deleted) and joins again by session token: the ingest field is
"ingest-1" again, but the id is added to the set "ingest::characters" and not to
ingest:ingest-1:characters, and the following disconnect leaves it in
"ingest::characters". Each entry lists ingest:ingest-1:characters,
ingest::characters and the ingest field after one step. -/
theorem join_by_token_records_stale_ingest :
    rejoinRun = some
      [(["fresh"], [], some (.str "ingest-1")),
       ([], [], none),
       ([], ["fresh"], some (.str "ingest-1")),
       ([], ["fresh"], none)] := by
  decide

/-- Claim C12, counterexample: a code is issued for amy's address; client c1 joins
with the address and the code and is authenticated; client c2 then joins with
the same address and code and is authenticated as the same character, not
rejected. -/
theorem login_code_accepted_twice :
    codeReuseRun = some
      (["amy@x.org,123456"],
       [("c1", some "7d4e1c2a-0000-4000-8000-000000000001"), ("c2", none)],
       [("c1", some "7d4e1c2a-0000-4000-8000-000000000001"),
        ("c2", some "7d4e1c2a-0000-4000-8000-000000000001")]) := by
  decide

/-- Claim C13, at failing inputs: a Join with an (email, code) pair that is not in
login_requests, and a Join whose SSO identity is not admitted, leave every send
queue empty and publish nothing: no error packet is sent. A Join with a token
that fails validation does put the error packet on the requesting client's
queue only. -/
theorem invalid_email_or_sso_gets_no_error_packet :
    outcome (handleJoin sampleExt (joinWith "" "" "" "amy@x.org" 1) (guestClient "c1") loginState)
        = some ([guestClient "c1", guestClient "c2"], [])
      ∧ outcome (handleJoin notAdmittedExt (joinWith "" "q" "" "" 0) (guestClient "c1") loginState)
        = some ([guestClient "c1", guestClient "c2"], [])
      ∧ outcome (handleJoin sampleExt (joinWith "" "" "bad" "" 0) (guestClient "c1") loginState)
        = some ([{ guestClient "c1" with send := [.Error 1] }, guestClient "c2"], []) := by
  decide

/-- Claim C14, at a failing input: on a listing whose line has four fields, the
fourth without an "=", the loop of the tick ends with an index out of range, for
every instance. A listing with an empty line, a line of three fields and a
non-numeric id does complete, with leader id 0. -/
theorem leader_tick_panics_without_equals :
    faultOf (findLeader (Split listingWithoutEquals '\n')) = some .indexOutOfRange
      ∧ faultOf (leaderTick listingWithoutEquals 3) = some .indexOutOfRange
      ∧ (findLeader (Split listingOddLines '\n')).toOption = some 0
      ∧ (leaderTick listingOddLines 3).toOption = some false := by
  decide

/-- Claim C17, at a failing input: a join packet with the name "Alice", the email
"amy@x.org" and the code 123456 is accepted by name, and the join packet passed
to `Send` has an empty name, quillToken and token but still carries the email
and the code. -/
theorem join_event_keeps_email_and_code :
    (handleJoin sampleExt (joinWith "Alice" "" "" "amy@x.org" 123456) (guestClient "c1")
        loginState).toOption.map (fun s => s.published.map credentials)
      = some [["", "", "", "amy@x.org", "123456"]] := by
  decide

/-- Claim C18, at a failing input: alice sends a FriendRequest whose recipient is
her own character id and whose sender id is "mallory". Her id is added to her
own requests set and a friend-update packet is sent to her; the same request
once more makes her a friend of herself. -/
theorem friend_request_to_self_accepted :
    selfRequestRun = some (["alice"], [.FriendUpdate "alice" "alice"], ["alice"]) := by
  decide

/-! ### The second half of the Join case -/

theorem who_SendBytes (room : String) (msg : Packet) (cs : List Client) :
    (SendBytes room msg cs).map (fun c => (c.id, c.character))
      = cs.map (fun c => (c.id, c.character)) := by
  simp only [SendBytes, List.map_map]
  apply List.map_congr_left
  intro c _
  simp only [Function.comp, (sendToClient_who room msg c).1, (sendToClient_who room msg c).2]

theorem sendToCharacters_db (ids : List String) (msg : Packet) :
    ∀ s : State, (s.sendToCharacters ids msg).db = s.db ∧
      (s.sendToCharacters ids msg).published = s.published ∧
      (s.sendToCharacters ids msg).clients
        = performSends (ids.map (fun id => ("character:" ++ id, msg))) s.clients := by
  induction ids with
  | nil => intro s; exact ⟨rfl, rfl, rfl⟩
  | cons a r ih =>
    intro s
    have h := ih (s.SendBytes ("character:" ++ a) msg)
    simp only [State.sendToCharacters, List.foldl_cons, performSends, List.map_cons] at h ⊢
    exact ⟨h.1, h.2.1, h.2.2⟩

theorem sendToCharacters_db_eq (ids : List String) (msg : Packet) (s : State) :
    (s.sendToCharacters ids msg).db = s.db :=
  (sendToCharacters_db ids msg s).1

theorem sendToCharacters_published_eq (ids : List String) (msg : Packet) (s : State) :
    (s.sendToCharacters ids msg).published = s.published :=
  (sendToCharacters_db ids msg s).2.1

theorem sendToCharacters_clients_eq (ids : List String) (msg : Packet) (s : State) :
    (s.sendToCharacters ids msg).clients
      = performSends (ids.map (fun id => ("character:" ++ id, msg))) s.clients :=
  (sendToCharacters_db ids msg s).2.2

theorem who_performSends (sends : List (String × Packet)) :
    ∀ cs : List Client, (performSends sends cs).map (fun c => (c.id, c.character))
      = cs.map (fun c => (c.id, c.character)) := by
  induction sends with
  | nil => intro cs; rfl
  | cons a r ih =>
    intro cs
    simp only [performSends, List.foldl_cons] at ih ⊢
    rw [ih, who_SendBytes]

theorem who_sendDirect (id : String) (msg : Packet) (s : State) :
    (s.sendDirect id msg).clients.map (fun c => (c.id, c.character))
      = s.clients.map (fun c => (c.id, c.character)) := by
  simp only [State.sendDirect, List.map_map]
  apply List.map_congr_left
  intro c _
  by_cases h : c.id = id <;> simp [Function.comp, h]

theorem who_setCharacter (sid : String) (ch : Character) (cs cs0 : List Client)
    (h : cs.map (fun c => (c.id, c.character)) = cs0.map (fun c => (c.id, c.character))) :
    (cs.map (fun c => if c.id = sid then { c with character := some ch } else c)).map
        (fun c => (c.id, c.character))
      = cs0.map (fun c => (c.id, if c.id = sid then some ch else c.character)) := by
  have hl : (cs.map (fun c => if c.id = sid then { c with character := some ch } else c)).map
        (fun c => (c.id, c.character))
      = (cs.map (fun c => (c.id, c.character))).map
          (fun x => (x.1, if x.1 = sid then some ch else x.2)) := by
    rw [List.map_map, List.map_map]
    apply List.map_congr_left
    intro c _
    by_cases hc : c.id = sid <;> simp [Function.comp, hc]
  have hr : cs0.map (fun c => (c.id, if c.id = sid then some ch else c.character))
      = (cs0.map (fun c => (c.id, c.character))).map
          (fun x => (x.1, if x.1 = sid then some ch else x.2)) := by
    rw [List.map_map]
    rfl
  rw [hl, hr, h]

/-- The Join case once a character with a non-empty id is resolved: the handler
completes, with this store, these characters in the registry and this
published packet. -/
theorem handleJoin_of_resolved (ext : Ext) (p : JoinPacket) (sender : Client) (s : State)
    (character : Character) (firstTime : Bool) (q : JoinPacket) (db : Store)
    (pip : Store → Store)
    (hauth : joinAuthenticate ext p sender s = .resolved character firstTime q db pip)
    (hid : character.ID ≠ "") :
    ∃ s1, handleJoin ext p sender s = .ok s1 ∧
      s1.db = ((((if q.Type_ = "join" then
                (pip db).SAdd ("room:" ++ character.Room ++ ":characters") character.ID
              else pip db).SAdd ("ingest:" ++ character.Ingest ++ ":characters") character.ID).HSet
            ("character:" ++ character.ID) "ingest" (.str ext.ingestID)).Set
          ("character:" ++ character.ID ++ ":active") "true") ∧
      s1.clients.map (fun c => (c.id, c.character))
        = s.clients.map (fun c =>
            (c.id, if c.id = sender.id then some { character with Ingest := ext.ingestID }
              else c.character)) ∧
      s1.published = s.published ++
        (if q.Type_ = "join" then
          [.Join { q with Name := "", QuillToken := "", Token := ""
                          Character := some { character with Ingest := ext.ingestID } }]
        else []) := by
  unfold handleJoin
  rw [hauth]
  simp only [hid, if_false]
  by_cases hty : q.Type_ = "join"
  · simp only [hty, if_true, Send, ProcessRedisMessage, sendToCharacters_db_eq,
      sendToCharacters_published_eq, sendToCharacters_clients_eq]
    refine ⟨_, rfl, rfl, ?_, rfl⟩
    simp only [who_SendBytes, who_sendDirect]
    apply who_setCharacter
    rw [who_performSends, who_performSends]
  · simp only [hty, if_false, sendToCharacters_db_eq,
      sendToCharacters_published_eq, sendToCharacters_clients_eq]
    refine ⟨_, rfl, rfl, ?_, by simp⟩
    apply who_setCharacter
    rw [who_performSends, who_performSends]

theorem emailToCharacter_ne_character (x : String) : "emailToCharacter" ≠ "character:" ++ x := by
  intro e
  have hd := congrArg String.data e
  rw [String.data_append] at hd
  exact absurd hd (by
    simp [show ("character:" : String).data
        = ['c', 'h', 'a', 'r', 'a', 'c', 't', 'e', 'r', ':'] from rfl,
      show ("emailToCharacter" : String).data
        = ['e', 'm', 'a', 'i', 'l', 'T', 'o', 'C', 'h', 'a', 'r', 'a', 'c', 't', 'e', 'r'] from rfl])

theorem mem_sets_SAdd_of_mem (db : Store) (key member key2 x : String) (h : x ∈ db.sets key2) :
    x ∈ (db.SAdd key member).sets key2 :=
  (mem_sets_SAdd db key member key2 x).mpr (Or.inl h)

/-- One Join by email and code, with the pair in login_requests and a non-empty
character id resolved for the address: the handler completes, the sender is
authenticated as that character, the pair is still in login_requests and the
address is mapped to the character id. -/
theorem join_by_email (ext : Ext) (p : JoinPacket) (sender : Client) (s : State)
    (hname : p.Name = "") (hquill : p.QuillToken = "") (htoken : p.Token = "")
    (hemail : p.Email ≠ "")
    (hvalid : s.db.SIsMember "login_requests" (p.Email ++ "," ++ Itoa p.Code) = true)
    (hid : (match s.db.HGet "emailToCharacter" p.Email with
      | none => ext.uuid
      | some v => v.text) ≠ "") :
    ∃ s1 ch, handleJoin ext p sender s = .ok s1 ∧
      ch.ID = (match s.db.HGet "emailToCharacter" p.Email with
        | none => ext.uuid
        | some v => v.text) ∧
      s1.clients.map (fun c => (c.id, c.character))
        = s.clients.map (fun c => (c.id, if c.id = sender.id then some ch else c.character)) ∧
      s1.db.SIsMember "login_requests" (p.Email ++ "," ++ Itoa p.Code) = true ∧
      ∃ v, s1.db.HGet "emailToCharacter" p.Email = some v ∧
        v.text = (match s.db.HGet "emailToCharacter" p.Email with
          | none => ext.uuid
          | some v => v.text) := by
  have hmem : (p.Email ++ "," ++ Itoa p.Code) ∈ s.db.sets "login_requests" := by
    simpa [Store.SIsMember] using hvalid
  cases hget : s.db.HGet "emailToCharacter" p.Email with
  | none =>
    rw [hget] at hid
    try dsimp only at hid
    try dsimp only
    obtain ⟨C, hC, hauth⟩ : ∃ C : Character, C.ID = ext.uuid ∧
        joinAuthenticate ext p sender s = .resolved C true { p with Email := "", Code := 0 } s.db
          (fun db => (db.HSetMap ("character:" ++ C.ID) C.toMap).HSet
            "emailToCharacter" p.Email (.str C.ID)) := by
      refine ⟨_, ?_, by
        simp only [joinAuthenticate, hname, hquill, htoken, hemail, hvalid, hget, ne_eq,
          not_true_eq_false, not_false_eq_true, if_true, if_false, Bool.not_true,
          Bool.false_eq_true]
        rfl⟩
      split_ifs <;> rfl
    obtain ⟨s1, hrun, hdb, hwho, _⟩ :=
      handleJoin_of_resolved ext p sender s C true _ s.db _ hauth (by rw [hC]; exact hid)
    refine ⟨s1, { C with Ingest := ext.ingestID }, hrun, hC, hwho, ?_, .str C.ID, ?_, hC⟩
    · rw [hdb]
      simp only [Store.SIsMember, decide_eq_true_eq]
      show _ ∈ Store.sets _ "login_requests"
      apply mem_sets_SAdd_of_mem
      split_ifs
      · apply mem_sets_SAdd_of_mem
        rw [sets_HSet, sets_HSetMap]
        exact hmem
      · rw [sets_HSet, sets_HSetMap]
        exact hmem
    · rw [hdb]
      show getField _ (Store.hashes _ "emailToCharacter") = _
      rw [show ∀ d : Store, (d.Set ("character:" ++ C.ID ++ ":active") "true").hashes = d.hashes
        from fun _ => rfl, hashes_HSet_ne _ _ _ _ _ (emailToCharacter_ne_character C.ID), hashes_SAdd]
      split_ifs
      · rw [hashes_SAdd, hashes_HSet_same, getField_setField_same]
      · rw [hashes_HSet_same, getField_setField_same]
  | some v =>
    rw [hget] at hid
    try dsimp only at hid
    try dsimp only
    have hauth : joinAuthenticate ext p sender s
        = .resolved { BindCharacter (s.db.HGetAll ("character:" ++ v.text)) with ID := v.text }
            false { p with Email := "", Code := 0 } s.db id := by
      simp only [joinAuthenticate, hname, hquill, htoken, hemail, hvalid, hget, ne_eq,
        not_true_eq_false, not_false_eq_true, if_true, if_false, Bool.not_true,
        Bool.false_eq_true]
    obtain ⟨s1, hrun, hdb, hwho, _⟩ :=
      handleJoin_of_resolved ext p sender s _ false _ s.db _ hauth hid
    refine ⟨s1, _, hrun, rfl, hwho, ?_, v, ?_, rfl⟩
    · rw [hdb]
      simp only [Store.SIsMember, decide_eq_true_eq]
      show _ ∈ Store.sets _ "login_requests"
      apply mem_sets_SAdd_of_mem
      split_ifs
      · apply mem_sets_SAdd_of_mem
        exact hmem
      · exact hmem
    · rw [hdb]
      show getField _ (Store.hashes _ "emailToCharacter") = _
      rw [show ∀ d : Store, (d.Set ("character:" ++ v.text ++ ":active") "true").hashes = d.hashes
        from fun _ => rfl, hashes_HSet_ne _ _ _ _ _ (emailToCharacter_ne_character v.text), hashes_SAdd]
      split_ifs
      · rw [hashes_SAdd]
        exact hget
      · exact hget

/-- Claim C12, amended: an emailed login code is not consumed by its use. For
every email e and code k recorded in login_requests (the character id resolved
for e, a fresh one on first use, being non-empty), a Join presenting (e, k) and
no other credential completes, authenticates the sender as the character of e
and leaves (e, k) in login_requests; a later Join presenting the same (e, k),
from any client, completes likewise and authenticates that client as the same
character. -/
theorem login_code_stays_valid (ext ext2 : Ext) (p : JoinPacket) (sender sender2 : Client)
    (s : State)
    (hname : p.Name = "") (hquill : p.QuillToken = "") (htoken : p.Token = "")
    (hemail : p.Email ≠ "")
    (hvalid : s.db.SIsMember "login_requests" (p.Email ++ "," ++ Itoa p.Code) = true)
    (hid : (match s.db.HGet "emailToCharacter" p.Email with
      | none => ext.uuid
      | some v => v.text) ≠ "") :
    ∃ s1 s2 ch1 ch2, handleJoin ext p sender s = .ok s1 ∧ handleJoin ext2 p sender2 s1 = .ok s2 ∧
      ch1.ID = (match s.db.HGet "emailToCharacter" p.Email with
        | none => ext.uuid
        | some v => v.text) ∧
      ch2.ID = ch1.ID ∧
      s1.clients.map (fun c => (c.id, c.character))
        = s.clients.map (fun c => (c.id, if c.id = sender.id then some ch1 else c.character)) ∧
      s2.clients.map (fun c => (c.id, c.character))
        = s1.clients.map (fun c => (c.id, if c.id = sender2.id then some ch2 else c.character)) ∧
      s1.db.SIsMember "login_requests" (p.Email ++ "," ++ Itoa p.Code) = true ∧
      s2.db.SIsMember "login_requests" (p.Email ++ "," ++ Itoa p.Code) = true := by
  obtain ⟨s1, ch1, hrun1, hch1, hwho1, hvalid1, v, hv, hvid⟩ :=
    join_by_email ext p sender s hname hquill htoken hemail hvalid hid
  have hid1 : (match s1.db.HGet "emailToCharacter" p.Email with
      | none => ext2.uuid
      | some v => v.text) ≠ "" := by
    rw [hv]
    dsimp only
    rw [hvid]
    exact hid
  obtain ⟨s2, ch2, hrun2, hch2, hwho2, hvalid2, _⟩ :=
    join_by_email ext2 p sender2 s1 hname hquill htoken hemail hvalid1 hid1
  refine ⟨s1, s2, ch1, ch2, hrun1, hrun2, hch1, ?_, hwho1, hwho2, hvalid1, hvalid2⟩
  rw [hch2, hch1, hv]
  dsimp only
  rw [hvid]

/-- Claim C12, witness: the pair (amy's address, 123456) is in login_requests;
client c1 joins with it, then client c2 does, and both end authenticated. -/
theorem login_code_stays_valid_witness :
    codeIssuedState.db.SIsMember "login_requests" ("amy@x.org" ++ "," ++ Itoa 123456) = true ∧
    ∃ s1 s2, handleJoin sampleExt (joinWith "" "" "" "amy@x.org" 123456) (guestClient "c1")
        codeIssuedState = .ok s1 ∧
      handleJoin sampleExt (joinWith "" "" "" "amy@x.org" 123456) (guestClient "c2") s1 = .ok s2 ∧
      s2.db.SIsMember "login_requests" ("amy@x.org" ++ "," ++ Itoa 123456) = true := by
  refine ⟨by decide, ?_⟩
  obtain ⟨s1, s2, _, _, hrun1, hrun2, _, _, _, _, _, hvalid2⟩ :=
    login_code_stays_valid sampleExt sampleExt (joinWith "" "" "" "amy@x.org" 123456)
      (guestClient "c1") (guestClient "c2") codeIssuedState rfl rfl rfl (by decide) (by decide)
      (by decide)
  exact ⟨s1, s2, hrun1, hrun2, hvalid2⟩

/-! ### Event attendance -/

/-- One accepted Event packet: the counter goes up by one and the notification
is sent exactly when the new value is the threshold. -/
theorem handleEvent_step (ext : Ext) (ID : String) (c : Client) (s : State) (ch : Character)
    (hch : c.character = some ch) (hvalid : s.db.SIsMember "events" ID = true)
    (hint : ∀ v, s.db.HGet ("character:" ++ ch.ID ++ ":achievements") "events" = some v →
      ∃ i, v = .int i) :
    handleEvent ext ID c s = .ok
      { clients :=
          if fieldInt "events" (s.db.HGetAll ("character:" ++ ch.ID ++ ":achievements")) + 1
              = ext.numEvents then
            SendBytes ("character:" ++ ch.ID) (.AchievementNotification "events") s.clients
          else s.clients
        db := ((s.db.SAdd ("event:" ++ ID ++ ":attendees") ch.ID).SAdd
            ("character:" ++ ch.ID ++ ":events") ID).HSet
            ("character:" ++ ch.ID ++ ":achievements") "events"
            (.int (fieldInt "events" (s.db.HGetAll ("character:" ++ ch.ID ++ ":achievements")) + 1))
        published := s.published } := by
  obtain hget | ⟨i, hget⟩ :
      getField "events" (s.db.hashes ("character:" ++ ch.ID ++ ":achievements")) = none ∨
      ∃ i, getField "events" (s.db.hashes ("character:" ++ ch.ID ++ ":achievements"))
        = some (.int i) := by
    cases h : getField "events" (s.db.hashes ("character:" ++ ch.ID ++ ":achievements")) with
    | none => exact Or.inl rfl
    | some v =>
      obtain ⟨i, rfl⟩ := hint v h
      exact Or.inr ⟨i, rfl⟩
  · unfold handleEvent
    simp only [hvalid, hch, Bool.not_true, Bool.false_eq_true, if_false, Store.HIncrBy,
      hashes_SAdd, fieldInt, Store.HGetAll, hget, zero_add, and_true]
    split_ifs <;> rfl
  · unfold handleEvent
    simp only [hvalid, hch, Bool.not_true, Bool.false_eq_true, if_false, Store.HIncrBy,
      hashes_SAdd, fieldInt, Store.HGetAll, hget, and_true]
    split_ifs <;> rfl

theorem performSends_append (a b : List (String × Packet)) (cs : List Client) :
    performSends (a ++ b) cs = performSends b (performSends a cs) := by
  simp only [performSends, List.foldl_append]

/-- A run of accepted Event packets: the counter goes up by their number and the
notification is sent once if the counter reaches the threshold during the run,
and not at all otherwise. -/
theorem attendEvents_run (ext : Ext) (sender : String) (ch : Character) (ids : List String) :
    ∀ (s : State) (c : Client),
      s.clients.find? (fun c => c.id = sender) = some c → c.character = some ch →
      (∀ ID ∈ ids, s.db.SIsMember "events" ID = true) →
      (∀ v, s.db.HGet ("character:" ++ ch.ID ++ ":achievements") "events" = some v →
        ∃ i, v = .int i) →
      ∃ s1, attendEvents ext sender ids s = .ok s1 ∧
        fieldInt "events" (s1.db.HGetAll ("character:" ++ ch.ID ++ ":achievements"))
          = fieldInt "events" (s.db.HGetAll ("character:" ++ ch.ID ++ ":achievements"))
            + ids.length ∧
        s1.clients = performSends
          (if fieldInt "events" (s.db.HGetAll ("character:" ++ ch.ID ++ ":achievements"))
                < ext.numEvents ∧
              ext.numEvents ≤ fieldInt "events"
                (s.db.HGetAll ("character:" ++ ch.ID ++ ":achievements")) + ids.length then
            [("character:" ++ ch.ID, Packet.AchievementNotification "events")]
          else [])
          s.clients ∧
        s1.published = s.published := by
  induction ids with
  | nil =>
    intro s c _ _ _ _
    refine ⟨s, rfl, by simp, ?_, rfl⟩
    have : ¬ (fieldInt "events" (s.db.HGetAll ("character:" ++ ch.ID ++ ":achievements"))
          < ext.numEvents ∧
        ext.numEvents ≤ fieldInt "events"
          (s.db.HGetAll ("character:" ++ ch.ID ++ ":achievements")) + ((([] : List String).length : Nat) : Int)) := by
      simp only [List.length_nil, Nat.cast_zero, add_zero]
      omega
    rw [if_neg this]
    rfl
  | cons ID rest ih =>
    intro s c hfind hch hvalid hint
    have hstep := handleEvent_step ext ID c s ch hch (hvalid ID (List.mem_cons_self _ _)) hint
    simp only [attendEvents, hfind, hstep]
    set cnt := fieldInt "events" (s.db.HGetAll ("character:" ++ ch.ID ++ ":achievements")) with hcnt
    set s1 : State :=
      { clients :=
          if cnt + 1 = ext.numEvents then
            SendBytes ("character:" ++ ch.ID) (.AchievementNotification "events") s.clients
          else s.clients
        db := ((s.db.SAdd ("event:" ++ ID ++ ":attendees") ch.ID).SAdd
            ("character:" ++ ch.ID ++ ":events") ID).HSet
            ("character:" ++ ch.ID ++ ":achievements") "events" (.int (cnt + 1))
        published := s.published } with hs1
    have hget1 : s1.db.HGet ("character:" ++ ch.ID ++ ":achievements") "events"
        = some (.int (cnt + 1)) := by
      simp only [hs1, Store.HGet, hashes_HSet_same, getField_setField_same]
    have hcnt1 : fieldInt "events" (s1.db.HGetAll ("character:" ++ ch.ID ++ ":achievements"))
        = cnt + 1 := by
      have := hget1
      simp only [Store.HGet] at this
      simp only [fieldInt, Store.HGetAll, this]
    have hfind1 : ∃ c1, s1.clients.find? (fun c => c.id = sender) = some c1 ∧
        c1.character = some ch := by
      simp only [hs1]
      split_ifs
      · refine ⟨_, by rw [find?_SendBytes, hfind]; rfl, ?_⟩
        rw [(sendToClient_who _ _ c).2, hch]
      · exact ⟨c, hfind, hch⟩
    obtain ⟨c1, hfind1, hch1⟩ := hfind1
    have hvalid1 : ∀ ID2 ∈ rest, s1.db.SIsMember "events" ID2 = true := by
      intro ID2 hmem
      have h0 := hvalid ID2 (List.mem_cons_of_mem _ hmem)
      simp only [Store.SIsMember, decide_eq_true_eq] at h0 ⊢
      simp only [hs1, sets_HSet]
      exact mem_sets_SAdd_of_mem _ _ _ _ _ (mem_sets_SAdd_of_mem _ _ _ _ _ h0)
    have hint1 : ∀ v, s1.db.HGet ("character:" ++ ch.ID ++ ":achievements") "events" = some v →
        ∃ i, v = .int i := by
      intro v hv
      rw [hget1] at hv
      exact ⟨cnt + 1, (Option.some.inj hv).symm⟩
    obtain ⟨s2, hrun, hc2, hcl2, hpub2⟩ := ih s1 c1 hfind1 hch1 hvalid1 hint1
    refine ⟨s2, hrun, ?_, ?_, ?_⟩
    · rw [hc2, hcnt1]
      simp only [List.length_cons, Nat.cast_add, Nat.cast_one]
      ring
    · rw [hcl2, hcnt1]
      have hfirst : s1.clients = performSends
          (if cnt + 1 = ext.numEvents then
            [("character:" ++ ch.ID, Packet.AchievementNotification "events")] else [])
          s.clients := by
        simp only [hs1]
        split_ifs <;> rfl
      rw [hfirst, ← performSends_append]
      congr 1
      simp only [List.length_cons, Nat.cast_add, Nat.cast_one]
      by_cases h1 : cnt + 1 = ext.numEvents
      · have hA : cnt < ext.numEvents ∧ ext.numEvents ≤ cnt + ((rest.length : Int) + 1) := by
          constructor <;> omega
        have hB : ¬ (cnt + 1 < ext.numEvents ∧ ext.numEvents ≤ cnt + 1 + (rest.length : Int)) := by
          omega
        simp [h1, hA, hB]
      · by_cases h2 : cnt + 1 < ext.numEvents ∧ ext.numEvents ≤ cnt + 1 + (rest.length : Int)
        · have hA : cnt < ext.numEvents ∧ ext.numEvents ≤ cnt + ((rest.length : Int) + 1) := by
            constructor <;> omega
          simp [h1, hA, h2]
        · have hA : ¬ (cnt < ext.numEvents ∧ ext.numEvents ≤ cnt + ((rest.length : Int) + 1)) := by
            omega
          simp [h1, hA, h2]
    · rw [hpub2]

/-- Claim C15: for every authenticated character and every sequence of Event
packets from it whose ids are in the events set (its "events" counter holding an
integer or being absent), each packet raises the counter by 1 and sends the
achievement notification exactly when the raised counter equals the configured
threshold, with the one target character:<acting character id>; over the whole
sequence the notification is therefore sent once if the counter reaches the
threshold during it and not at all otherwise, and nothing is published to the
peers. An Event packet whose id is not in the events set returns the state
unchanged. -/
theorem event_notification_once (ext : Ext) (sender : String) (ids : List String) (s : State)
    (c : Client) (ch : Character)
    (hfind : s.clients.find? (fun c => c.id = sender) = some c) (hch : c.character = some ch)
    (hvalid : ∀ ID ∈ ids, s.db.SIsMember "events" ID = true)
    (hint : ∀ v, s.db.HGet ("character:" ++ ch.ID ++ ":achievements") "events" = some v →
      ∃ i, v = .int i) :
    (∃ s1, attendEvents ext sender ids s = .ok s1 ∧
      fieldInt "events" (s1.db.HGetAll ("character:" ++ ch.ID ++ ":achievements"))
        = fieldInt "events" (s.db.HGetAll ("character:" ++ ch.ID ++ ":achievements"))
          + ids.length ∧
      s1.clients = performSends
        (if fieldInt "events" (s.db.HGetAll ("character:" ++ ch.ID ++ ":achievements"))
              < ext.numEvents ∧
            ext.numEvents ≤ fieldInt "events"
              (s.db.HGetAll ("character:" ++ ch.ID ++ ":achievements")) + ids.length then
          [("character:" ++ ch.ID, Packet.AchievementNotification "events")]
        else [])
        s.clients ∧
      s1.published = s.published) ∧
    (∀ ID : String, s.db.SIsMember "events" ID = true →
      ∃ s1, handleEvent ext ID c s = .ok s1 ∧
        fieldInt "events" (s1.db.HGetAll ("character:" ++ ch.ID ++ ":achievements"))
          = fieldInt "events" (s.db.HGetAll ("character:" ++ ch.ID ++ ":achievements")) + 1 ∧
        s1.clients =
          (if fieldInt "events" (s.db.HGetAll ("character:" ++ ch.ID ++ ":achievements")) + 1
              = ext.numEvents then
            SendBytes ("character:" ++ ch.ID) (.AchievementNotification "events") s.clients
          else s.clients)) ∧
    (∀ (ID : String) (c0 : Client), s.db.SIsMember "events" ID = false →
      handleEvent ext ID c0 s = .ok s) := by
  refine ⟨attendEvents_run ext sender ch ids s c hfind hch hvalid hint, ?_, ?_⟩
  · intro ID hID
    refine ⟨_, handleEvent_step ext ID c s ch hch hID hint, ?_, rfl⟩
    simp only [fieldInt, Store.HGetAll, hashes_HSet_same, getField_setField_same]
  · intro ID c0 hID
    simp only [handleEvent, hID, Bool.not_false, if_true]

/-- Claim C15, witness: with the threshold 3, alice attends four events; her
counter ends at 4 and her queue holds the notification once. -/
theorem event_notification_once_witness :
    ∃ s1, attendEvents sampleExt "c1" ["talk-1", "talk-2", "talk-3", "talk-4"] eventState = .ok s1 ∧
      fieldInt "events" (s1.db.HGetAll "character:alice:achievements") = 4 ∧
      s1.clients.map (fun c => (c.id, c.send))
        = [("c1", [Packet.AchievementNotification "events"]), ("c2", []), ("c3", [])] := by
  obtain ⟨s1, hrun, hcnt, hcl, _⟩ :=
    (event_notification_once sampleExt "c1" ["talk-1", "talk-2", "talk-3", "talk-4"] eventState
      (sampleClient "c1" "alice" "lobby") (sampleCharacter "alice" "lobby") (by decide) rfl
      (by decide) (by
        intro v hv
        have hnone : eventState.db.HGet
            ("character:" ++ (sampleCharacter "alice" "lobby").ID ++ ":achievements") "events"
              = none := by decide
        rw [hnone] at hv
        exact Option.noConfusion hv)).1
  refine ⟨s1, hrun, ?_, ?_⟩
  · rw [show "character:alice:achievements"
        = "character:" ++ (sampleCharacter "alice" "lobby").ID ++ ":achievements" from by decide,
      hcnt]
    decide
  · rw [hcl]
    decide

/-! ### Disconnect -/

theorem append_left_cancel_string (a b c : String) (h : a ++ b = a ++ c) : b = c := by
  have hd := congrArg String.data h
  simp only [String.data_append] at hd
  exact String.ext (List.append_cancel_left hd)

theorem characterKey_ne_active (x : String) :
    "character:" ++ x ≠ "character:" ++ x ++ ":active" := by
  intro e
  have hd := congrArg String.data e
  simp only [String.data_append] at hd
  have : (":active" : String).data = [] := by
    have h2 := List.append_cancel_left
      (show ("character:" : String).data ++ x.data ++ ([] : List Char)
        = ("character:" : String).data ++ x.data ++ (":active" : String).data by
          rw [List.append_nil]; exact hd)
    exact h2.symm
  exact absurd this (by decide)

theorem suffixKey_ne_active (x suffix : String) (h : suffix ≠ ":active") :
    "character:" ++ x ++ suffix ≠ "character:" ++ x ++ ":active" :=
  fun e => h (append_left_cancel_string _ _ _ e)

theorem characterKey_ne_ingest (x suffix i : String) :
    "character:" ++ x ++ suffix ≠ "ingest:" ++ i ++ ":characters" := by
  intro e
  have hd := congrArg String.data e
  simp only [String.data_append] at hd
  exact absurd hd (by
    simp [show ("character:" : String).data
        = ['c', 'h', 'a', 'r', 'a', 'c', 't', 'e', 'r', ':'] from rfl,
      show ("ingest:" : String).data = ['i', 'n', 'g', 'e', 's', 't', ':'] from rfl])

theorem getField_filter_ne (f g : String) (fs : Fields) (h : g ≠ f) :
    getField g (fs.filter (fun fv => fv.1 ≠ f)) = getField g fs := by
  induction fs with
  | nil => rfl
  | cons a r ih =>
    obtain ⟨k, w⟩ := a
    by_cases hk : k = f
    · subst hk
      have hkg : ¬ (k = g) := fun e => h e.symm
      simp only [ne_eq, decide_not] at ih
      simp [List.filter_cons, getField, hkg, ih]
    · by_cases hg : k = g
      · subst hg
        simp [List.filter_cons, getField, hk]
      · simp only [ne_eq, decide_not] at ih
        simp [List.filter_cons, getField, hk, hg, ih]

/-- The disconnect of a client whose character has the stored room `R`: it
completes, and the state it leaves. -/
theorem disconnectClient_eq (ext : Ext) (c : Client) (s : State) (ch : Character) (R : String)
    (hch : c.character = some ch)
    (hroom : s.db.HGet ("character:" ++ ch.ID) "room" = some (.str R)) :
    disconnectClient ext c s = .ok
      { clients :=
          (performSends
            ((R, Packet.Leave (some ch) R) ::
              (s.db.SMembers ("character:" ++ ch.ID ++ ":teammates")
                ++ s.db.SMembers ("character:" ++ ch.ID ++ ":friends")).map
                (fun id => ("character:" ++ id, NewStatusPacket ch.ID false)))
            s.clients).filter (fun c1 => c1.id ≠ c.id)
        db := (((s.db.Del ("character:" ++ ch.ID ++ ":active")).HDel
                ("character:" ++ ch.ID) "ingest").SRem
                ("ingest:" ++ ext.ingestID ++ ":characters") ch.ID).SRem
              ("room:" ++ R ++ ":characters") ch.ID
        published := s.published ++ [Packet.Leave (some ch) R] } := by
  have hsets : ∀ suffix : String, suffix ≠ ":active" →
      (((s.db.Del ("character:" ++ ch.ID ++ ":active")).HDel
          ("character:" ++ ch.ID) "ingest").SRem
          ("ingest:" ++ ext.ingestID ++ ":characters") ch.ID).SMembers
          ("character:" ++ ch.ID ++ suffix)
        = s.db.SMembers ("character:" ++ ch.ID ++ suffix) := by
    intro suffix hs
    simp only [Store.SMembers, Store.SRem, Store.HDel, Store.Del,
      Function.update_noteq (characterKey_ne_ingest ch.ID suffix ext.ingestID),
      Function.update_noteq (suffixKey_ne_active ch.ID suffix hs)]
  have hget : (((s.db.Del ("character:" ++ ch.ID ++ ":active")).HDel
          ("character:" ++ ch.ID) "ingest").SRem
          ("ingest:" ++ ext.ingestID ++ ":characters") ch.ID).HGet ("character:" ++ ch.ID) "room"
        = some (.str R) := by
    simp only [Store.HGet, Store.SRem, Store.HDel, Store.Del, Function.update_same,
      Function.update_noteq (characterKey_ne_active ch.ID)]
    rw [getField_filter_ne _ _ _ (by decide)]
    exact hroom
  unfold disconnectClient
  simp only [hch, hsets ":teammates" (by decide), hsets ":friends" (by decide), hget, Value.text,
    Send, ProcessRedisMessage, sendToCharacters_clients_eq, sendToCharacters_db_eq,
    sendToCharacters_published_eq]
  simp only [performSends, List.map_append, List.foldl_append, List.foldl_cons]

theorem sendToClient_keeps (room : String) (msg x : Packet) (c : Client) (h : x ∈ c.send) :
    x ∈ (sendToClient room msg c).send := by
  unfold sendToClient
  cases c.character with
  | none => exact h
  | some ch =>
    simp only
    split_ifs <;> simp [h]

theorem sendToClient_room_delivers (room : String) (msg : Packet) (c : Client) (ch : Character)
    (hch : c.character = some ch) (hroom : ch.Room = room) :
    msg ∈ (sendToClient room msg c).send := by
  unfold sendToClient
  simp only [hch, hroom, if_true]
  split_ifs <;> simp

theorem sendToClient_character_delivers (id : String) (msg : Packet) (c : Client)
    (ch : Character) (hch : c.character = some ch) (hid : ch.ID = id) (hcolon : ':' ∉ id.data) :
    msg ∈ (sendToClient ("character:" ++ id) msg c).send := by
  unfold sendToClient
  simp only [hch, Contains_character_target, Split_character_target id hcolon, hid, Bool.true_and,
    beq_self_eq_true, if_true]
  split_ifs <;> simp

/-- Every client of the registry after a list of sends is the client it was, with
its queue extended, and holds each packet of the list whose target matches it. -/
theorem performSends_delivers (sends : List (String × Packet)) :
    ∀ (cs : List Client) (c1 : Client), c1 ∈ performSends sends cs →
      ∃ c0 ∈ cs, c0.id = c1.id ∧ c0.character = c1.character ∧
        (∀ x ∈ c0.send, x ∈ c1.send) ∧
        ∀ (t : String) (m : Packet), (t, m) ∈ sends →
          (∀ c2 : Client, c2.character = c0.character → m ∈ (sendToClient t m c2).send) →
          m ∈ c1.send := by
  induction sends with
  | nil =>
    intro cs c1 h
    exact ⟨c1, h, rfl, rfl, fun _ hx => hx, fun _ _ hm => absurd hm (List.not_mem_nil _)⟩
  | cons a r ih =>
    intro cs c1 h
    simp only [performSends, List.foldl_cons] at h ih
    obtain ⟨c0, hc0, hid, hchar, hkeep, hdel⟩ := ih _ c1 h
    simp only [SendBytes, List.mem_map] at hc0
    obtain ⟨c00, hc00, rfl⟩ := hc0
    refine ⟨c00, hc00, ?_, ?_, ?_, ?_⟩
    · rw [← hid, (sendToClient_who _ _ c00).1]
    · rw [← hchar, (sendToClient_who _ _ c00).2]
    · intro x hx
      exact hkeep x (sendToClient_keeps _ _ _ _ hx)
    · intro t m hm hmatch
      rcases List.mem_cons.mp hm with h1 | h1
      · subst h1
        exact hkeep m (hmatch c00 rfl)
      · apply hdel t m h1
        intro c2 hc2
        apply hmatch
        rw [hc2, (sendToClient_who _ _ c00).2]

/-- Claim C16: for every client with an authenticated character c whose stored
room is R, `disconnectClient` completes; afterwards the registry holds no client
with that id and the other clients with their characters as before, c's active
flag is deleted, c is no member of room:R:characters, and the leave packet for c
is published and fanned out to R, followed by a status packet for c's id with
online = false to character:<id> for each id of c's teammates and then of c's
friends: every remaining client whose character is in room R holds the leave
packet, and every remaining client whose character id (free of colons) is among
the teammates or friends holds the status packet. For a client without a
character only the registry removal happens. -/
theorem disconnect_postcondition (ext : Ext) (c : Client) (s : State) (ch : Character)
    (R : String) (hch : c.character = some ch)
    (hroom : s.db.HGet ("character:" ++ ch.ID) "room" = some (.str R)) :
    (∃ s1, disconnectClient ext c s = .ok s1 ∧
      (∀ c1 ∈ s1.clients, c1.id ≠ c.id) ∧
      s1.clients.map (fun c1 => (c1.id, c1.character))
        = (s.clients.filter (fun c1 => c1.id ≠ c.id)).map (fun c1 => (c1.id, c1.character)) ∧
      s1.db.strings ("character:" ++ ch.ID ++ ":active") = none ∧
      ch.ID ∉ s1.db.SMembers ("room:" ++ R ++ ":characters") ∧
      s1.published = s.published ++ [Packet.Leave (some ch) R] ∧
      s1.clients = (performSends
          ((R, Packet.Leave (some ch) R) ::
            (s.db.SMembers ("character:" ++ ch.ID ++ ":teammates")
              ++ s.db.SMembers ("character:" ++ ch.ID ++ ":friends")).map
              (fun id => ("character:" ++ id, Packet.Status ch.ID false false)))
          s.clients).filter (fun c1 => c1.id ≠ c.id) ∧
      (∀ c1 ∈ s1.clients, ∀ ch1 : Character, c1.character = some ch1 → ch1.Room = R →
        Packet.Leave (some ch) R ∈ c1.send) ∧
      (∀ f ∈ s.db.SMembers ("character:" ++ ch.ID ++ ":teammates")
            ++ s.db.SMembers ("character:" ++ ch.ID ++ ":friends"),
        ':' ∉ f.data → ∀ c1 ∈ s1.clients, ∀ ch1 : Character, c1.character = some ch1 →
          ch1.ID = f → Packet.Status ch.ID false false ∈ c1.send)) ∧
    (∀ c0 : Client, c0.character = none →
      disconnectClient ext c0 s
        = .ok { s with clients := s.clients.filter (fun c1 => c1.id ≠ c0.id) }) := by
  refine ⟨⟨_, disconnectClient_eq ext c s ch R hch hroom, ?_, ?_, ?_, ?_, rfl, rfl, ?_, ?_⟩, ?_⟩
  · intro c1 hc1
    have := (List.mem_filter.mp hc1).2
    simpa using this
  · have hp : (fun c1 : Client => decide (c1.id ≠ c.id))
        = (fun x : String × Option Character => decide (x.1 ≠ c.id))
            ∘ (fun c1 : Client => (c1.id, c1.character)) := rfl
    simp only
    rw [hp, ← List.filter_map, ← List.filter_map, who_performSends]
  · simp only [Store.SRem, Store.HDel, Store.Del, Function.update_same]
  · intro hmem
    exact ((mem_sets_SRem _ _ _ _ _).mp hmem).2 ⟨rfl, rfl⟩
  · intro c1 hc1 ch1 hch1 hR
    obtain ⟨c0, _, _, hchar, _, hdel⟩ := performSends_delivers _ _ c1 (List.mem_filter.mp hc1).1
    apply hdel R _ (List.mem_cons_self _ _)
    intro c2 hc2
    exact sendToClient_room_delivers R _ c2 ch1 (by rw [hc2, hchar, hch1]) hR
  · intro f hf hcolon c1 hc1 ch1 hch1 hid
    obtain ⟨c0, _, _, hchar, _, hdel⟩ := performSends_delivers _ _ c1 (List.mem_filter.mp hc1).1
    apply hdel ("character:" ++ f) _
      (List.mem_cons_of_mem _ (List.mem_map.mpr ⟨f, hf, rfl⟩))
    intro c2 hc2
    exact sendToClient_character_delivers f _ c2 ch1 (by rw [hc2, hchar, hch1]) hid hcolon
  · intro c0 hc0
    simp only [disconnectClient, hc0]

/-- Claim C16, witness: scenario 5, alice disconnects with her friend bob and her
teammate carol connected; bob, in her room, gets the leave packet and the
status packet, carol the status packet, and alice's client is gone. -/
theorem disconnect_postcondition_witness :
    friendsState.db.HGet ("character:" ++ "alice") "room" = some (.str "lobby") ∧
    ∃ s1, disconnectClient sampleExt (sampleClient "c1" "alice" "lobby") friendsState = .ok s1 ∧
      s1.db.strings "character:alice:active" = none ∧
      "alice" ∉ s1.db.SMembers "room:lobby:characters" ∧
      s1.clients.map (fun c1 => (c1.id, c1.send))
        = [("c2", [Packet.Leave (some (sampleCharacter "alice" "lobby")) "lobby",
                   Packet.Status "alice" false false]),
           ("c3", [Packet.Status "alice" false false])] := by
  refine ⟨by decide, ?_⟩
  obtain ⟨s1, hrun, _, _, hactive, hroom, _, hcl, _, _⟩ :=
    (disconnect_postcondition sampleExt (sampleClient "c1" "alice" "lobby") friendsState
      (sampleCharacter "alice" "lobby") "lobby" rfl (by decide)).1
  refine ⟨s1, hrun, hactive, hroom, ?_⟩
  rw [hcl]
  decide

end Playground
